import Mathlib

/-!
# Signaling server: room registry and event handlers

A shallow embedding of `src/server.js`: the in-memory registry `rooms`
(a JavaScript `Map` from class id to a `Map` from socket id to participant
record), the Socket.IO room subscriptions changed by `socket.join` and
`socket.leave`, and the handlers registered inside `io.on('connection')`.

Each handler is a function from the state before the event to either a
JavaScript exception or the state after the event together with the list of
outbound emissions, in program order.

The handlers are first given on primitive field values (`undefined`, `null`,
booleans, numbers, strings); numbers are represented by integers, since the
handlers only test and forward them. The section "Handlers on field values of
any kind" follows the same handlers with objects and arrays as field values,
for the question which payloads make a handler raise.
-/

namespace SignalingServer

/-! ## JavaScript values -/

/-- Primitive JavaScript values that a payload field can hold. -/
inductive JSVal where
  | undefined
  | null
  | bool (b : Bool)
  | num (n : Int)
  | str (s : String)
deriving DecidableEq, Repr

namespace JSVal

/-- Truthiness as used by `if (x)` and `x && y`. -/
def truthy : JSVal → Bool
  | undefined => false
  | null => false
  | bool b => b
  | num n => decide (n ≠ 0)
  | str s => decide (s ≠ "")

/-- The test `typeof v === 'number'`. -/
def isNumber : JSVal → Bool
  | num _ => true
  | _ => false

/-- The loose comparison `v == null`, true exactly for `null` and `undefined`. -/
def isNullish : JSVal → Bool
  | undefined => true
  | null => true
  | _ => false

end JSVal

/-- Exceptions a handler can raise. -/
inductive JSError where
  | typeError
deriving DecidableEq, Repr

/-- The first argument a client passes with an event: a primitive (including
`undefined` when no argument is sent) or an object with named fields. -/
inductive Payload where
  | value (v : JSVal)
  | object (fields : List (String × JSVal))
deriving DecidableEq, Repr

/-- Property read `obj.key` on a parsed object; a missing property is `undefined`. -/
def lookupField (key : String) : List (String × JSVal) → JSVal
  | [] => JSVal.undefined
  | (k, v) :: rest => if k = key then v else lookupField key rest

/-- Parameter destructuring `({ a, b, ... }) => ...`: raises `TypeError` on
`undefined` and `null`; on any other primitive every destructured name is
`undefined`; on an object each name reads the property. -/
def Payload.destructure : Payload → Except JSError (String → JSVal)
  | Payload.value JSVal.undefined => Except.error JSError.typeError
  | Payload.value JSVal.null => Except.error JSError.typeError
  | Payload.value _ => Except.ok (fun _ => JSVal.undefined)
  | Payload.object fields => Except.ok (fun key => lookupField key fields)

/-! ## JavaScript `Map`

A `Map` is an insertion-ordered list of entries with pairwise distinct keys.
The operations below are defined on every list; `NodupKeys` states the
distinct-keys invariant, which they preserve. -/

/-- Entries of a JavaScript `Map`, in insertion order. -/
abbrev JSMap (κ : Type) (ν : Type) := List (κ × ν)

namespace JSMap

variable {κ ν : Type} [DecidableEq κ]

/-- The method `Map.prototype.has`. -/
def has : JSMap κ ν → κ → Bool
  | [], _ => false
  | (k, _) :: rest, key => if k = key then true else has rest key

/-- The method `Map.prototype.get`; `none` stands for `undefined`. -/
def get : JSMap κ ν → κ → Option ν
  | [], _ => none
  | (k, v) :: rest, key => if k = key then some v else get rest key

/-- The method `Map.prototype.set`: an existing key keeps its position, a new
key is appended. -/
def set : JSMap κ ν → κ → ν → JSMap κ ν
  | [], key, val => [(key, val)]
  | (k, v) :: rest, key, val =>
    if k = key then (k, val) :: rest else (k, v) :: set rest key val

/-- The method `Map.prototype.delete`. -/
def delete (m : JSMap κ ν) (key : κ) : JSMap κ ν :=
  m.filter (fun e => decide (e.1 ≠ key))

/-- The property `Map.prototype.size`. -/
def size (m : JSMap κ ν) : Nat := m.length

/-- The iterator `Map.prototype.values`, collected by `Array.from`. -/
def values (m : JSMap κ ν) : List ν := m.map Prod.snd

/-- The keys of a map, in insertion order. -/
def keys (m : JSMap κ ν) : List κ := m.map Prod.fst

/-- The invariant of a `Map`: no key occurs twice. -/
def NodupKeys (m : JSMap κ ν) : Prop := (keys m).Nodup

end JSMap

/-! ## Data model -/

/-- The participant record built by `join-class` (lines 37-45). `joinedAt` is
the clock reading whose ISO rendering the source stores. -/
structure Participant where
  id : String
  name : JSVal
  role : JSVal
  peerId : JSVal
  isMuted : JSVal
  isVideoOn : JSVal
  joinedAt : Nat
deriving DecidableEq, Repr

/-- One room: socket id to participant record. -/
abbrev Room := JSMap String Participant

/-- The registry `rooms` (line 22): class id to room. -/
abbrev Registry := JSMap JSVal Room

/-- The chat message built by `send-message` (lines 61-66). -/
structure ChatMessage where
  id : Nat
  sender : JSVal
  text : JSVal
  time : String
deriving DecidableEq, Repr

/-- Server state: the registry and the Socket.IO subscriptions, a set of
(socket id, room name) pairs kept by the adapter. -/
structure State where
  rooms : Registry
  subs : List (String × JSVal)
deriving DecidableEq, Repr

/-- State at process start. -/
def State.empty : State := { rooms := [], subs := [] }

/-- The call `socket.join(classId)`. -/
def subscribe (subs : List (String × JSVal)) (sid : String) (classId : JSVal) :
    List (String × JSVal) :=
  if (sid, classId) ∈ subs then subs else subs ++ [(sid, classId)]

/-- The call `socket.leave(classId)`. -/
def unsubscribe (subs : List (String × JSVal)) (sid : String) (classId : JSVal) :
    List (String × JSVal) :=
  subs.filter (fun e => decide (e ≠ (sid, classId)))

/-- Addressing of an emission. -/
inductive Target where
  /-- Unicast `socket.emit`. -/
  | socket (sid : String)
  /-- Broadcast `socket.to(classId).emit`: the room without the sender. -/
  | roomExcept (classId : JSVal) (sender : String)
  /-- Broadcast `io.to(classId).emit`: the whole room. -/
  | room (classId : JSVal)
deriving DecidableEq, Repr

/-- Outbound events with their payloads. -/
inductive OutEvent where
  | roomParticipants (participants : List Participant)
  | userJoined (participant : Participant)
  | newMessage (chatMessage : ChatMessage)
  | participantUpdatedMic (id : String) (isMuted : JSVal)
  | participantUpdatedVideo (id : String) (isVideoOn : JSVal)
  | userLeft (id : String) (name : JSVal) (peerId : JSVal)
  | studentCountUpdate (peerId : JSVal) (count : JSVal)
deriving DecidableEq, Repr

/-- One outbound emission. -/
structure Emit where
  target : Target
  event : OutEvent
deriving DecidableEq, Repr

/-- Clock readings available to one handler invocation: `now` is the time in
milliseconds, `localeTime` the rendering produced by `toLocaleTimeString`. -/
structure Clock where
  now : Nat
  localeTime : String
deriving DecidableEq, Repr

/-- Outcome of one handler invocation. -/
abbrev Result := Except JSError (State × List Emit)

/-! ## Handlers (lines 24-152)

In every handler `sid` is `socket.id` of the connection the event arrived on. -/

/-- Body of the `join-class` handler (lines 29-56) on destructured fields. -/
def joinClass (st : State) (sid : String) (clk : Clock)
    (classId userName userRole peerId : JSVal) : Result :=
  -- socket.join(classId)
  let subs1 := subscribe st.subs sid classId
  -- if (!rooms.has(classId)) rooms.set(classId, new Map())
  let rooms1 := if JSMap.has st.rooms classId then st.rooms else JSMap.set st.rooms classId []
  let participant : Participant :=
    { id := sid, name := userName, role := userRole, peerId := peerId,
      isMuted := JSVal.bool false, isVideoOn := JSVal.bool true, joinedAt := clk.now }
  -- rooms.get(classId).set(socket.id, participant)
  match JSMap.get rooms1 classId with
  | none => Except.error JSError.typeError
  | some room =>
    let room1 := JSMap.set room sid participant
    let rooms2 := JSMap.set rooms1 classId room1
    -- Array.from(rooms.get(classId).values())
    match JSMap.get rooms2 classId with
    | none => Except.error JSError.typeError
    | some room2 =>
      Except.ok ({ rooms := rooms2, subs := subs1 },
        [ { target := Target.socket sid,
            event := OutEvent.roomParticipants (JSMap.values room2) },
          { target := Target.roomExcept classId sid,
            event := OutEvent.userJoined participant } ])

/-- Body of the `send-message` handler (lines 61-69). -/
def sendMessage (st : State) (clk : Clock) (classId message sender : JSVal) : Result :=
  let chatMessage : ChatMessage :=
    { id := clk.now, sender := sender, text := message, time := clk.localeTime }
  Except.ok (st, [ { target := Target.room classId, event := OutEvent.newMessage chatMessage } ])

/-- Body of the `toggle-mic` handler (lines 74-84). -/
def toggleMic (st : State) (sid : String) (classId isMuted : JSVal) : Result :=
  match JSMap.get st.rooms classId with
  | none => Except.ok (st, [])
  | some room =>
    if JSMap.has room sid then
      match JSMap.get room sid with
      | none => Except.error JSError.typeError
      | some participant =>
        let participant1 : Participant := { participant with isMuted := isMuted }
        Except.ok
          ({ st with rooms := JSMap.set st.rooms classId (JSMap.set room sid participant1) },
           [ { target := Target.roomExcept classId sid,
               event := OutEvent.participantUpdatedMic sid isMuted } ])
    else Except.ok (st, [])

/-- Body of the `toggle-video` handler (lines 89-99). -/
def toggleVideo (st : State) (sid : String) (classId isVideoOn : JSVal) : Result :=
  match JSMap.get st.rooms classId with
  | none => Except.ok (st, [])
  | some room =>
    if JSMap.has room sid then
      match JSMap.get room sid with
      | none => Except.error JSError.typeError
      | some participant =>
        let participant1 : Participant := { participant with isVideoOn := isVideoOn }
        Except.ok
          ({ st with rooms := JSMap.set st.rooms classId (JSMap.set room sid participant1) },
           [ { target := Target.roomExcept classId sid,
               event := OutEvent.participantUpdatedVideo sid isVideoOn } ])
    else Except.ok (st, [])

/-- Callback of `rooms.forEach` in the `disconnect` handler (lines 107-124),
applied to one entry. Returns what becomes of the entry (`none` when
`rooms.delete(classId)` removes it) and the emissions. -/
def disconnectVisit (sid : String) (classId : JSVal) (room : Room) :
    Except JSError (Option Room × List Emit) :=
  if JSMap.has room sid then
    match JSMap.get room sid with
    | none => Except.error JSError.typeError
    | some participant =>
      let room1 := JSMap.delete room sid
      let left : Emit :=
        { target := Target.roomExcept classId sid,
          event := OutEvent.userLeft sid participant.name participant.peerId }
      if JSMap.size room1 = 0 then Except.ok (none, [left])
      else Except.ok (some room1, [left])
  else Except.ok (some room, [])

/-- The loop `rooms.forEach` of the `disconnect` handler: entries are visited
once each in insertion order; the callback touches only the visited entry. -/
def disconnectRooms (sid : String) : Registry → Except JSError (Registry × List Emit)
  | [] => Except.ok ([], [])
  | (classId, room) :: rest =>
    match disconnectVisit sid classId room with
    | Except.error e => Except.error e
    | Except.ok (kept, emits) =>
      match disconnectRooms sid rest with
      | Except.error e => Except.error e
      | Except.ok (rest1, emits1) =>
        match kept with
        | none => Except.ok (rest1, emits ++ emits1)
        | some room1 => Except.ok ((classId, room1) :: rest1, emits ++ emits1)

/-- Body of the `disconnect` handler (lines 104-124). -/
def disconnect (st : State) (sid : String) : Result :=
  match disconnectRooms sid st.rooms with
  | Except.error e => Except.error e
  | Except.ok (rooms1, emits) => Except.ok ({ st with rooms := rooms1 }, emits)

/-- Body of the `student-send-count` handler (lines 129-131). -/
def studentSendCount (st : State) (sid : String) (classId count peerId : JSVal) : Result :=
  if classId.truthy && !peerId.isNullish && count.isNumber then
    Except.ok (st, [ { target := Target.roomExcept classId sid,
                       event := OutEvent.studentCountUpdate peerId count } ])
  else Except.ok (st, [])

/-- Body of the `leave-class` handler (lines 136-150). -/
def leaveClass (st : State) (sid : String) (classId : JSVal) : Result :=
  match JSMap.get st.rooms classId with
  | none => Except.ok (st, [])
  | some room =>
    if JSMap.has room sid then
      match JSMap.get room sid with
      | none => Except.error JSError.typeError
      | some participant =>
        let room1 := JSMap.delete room sid
        Except.ok
          ({ rooms := JSMap.set st.rooms classId room1,
             subs := unsubscribe st.subs sid classId },
           [ { target := Target.roomExcept classId sid,
               event := OutEvent.userLeft sid participant.name participant.peerId } ])
    else Except.ok (st, [])

/-! ## Handlers on raw payloads -/

/-- The handler `socket.on('join-class', ...)` with its parameter destructuring (line 28). -/
def onJoinClass (st : State) (sid : String) (clk : Clock) (payload : Payload) : Result :=
  match payload.destructure with
  | Except.error e => Except.error e
  | Except.ok f => joinClass st sid clk (f "classId") (f "userName") (f "userRole") (f "peerId")

/-- The handler `socket.on('send-message', ...)` (line 60). -/
def onSendMessage (st : State) (clk : Clock) (payload : Payload) : Result :=
  match payload.destructure with
  | Except.error e => Except.error e
  | Except.ok f => sendMessage st clk (f "classId") (f "message") (f "sender")

/-- The handler `socket.on('toggle-mic', ...)` (line 73). -/
def onToggleMic (st : State) (sid : String) (payload : Payload) : Result :=
  match payload.destructure with
  | Except.error e => Except.error e
  | Except.ok f => toggleMic st sid (f "classId") (f "isMuted")

/-- The handler `socket.on('toggle-video', ...)` (line 88). -/
def onToggleVideo (st : State) (sid : String) (payload : Payload) : Result :=
  match payload.destructure with
  | Except.error e => Except.error e
  | Except.ok f => toggleVideo st sid (f "classId") (f "isVideoOn")

/-- The handler `socket.on('student-send-count', ...)` (line 128). -/
def onStudentSendCount (st : State) (sid : String) (payload : Payload) : Result :=
  match payload.destructure with
  | Except.error e => Except.error e
  | Except.ok f => studentSendCount st sid (f "classId") (f "count") (f "peerId")

/-- The handler `socket.on('leave-class', ...)` (line 135). -/
def onLeaveClass (st : State) (sid : String) (payload : Payload) : Result :=
  match payload.destructure with
  | Except.error e => Except.error e
  | Except.ok f => leaveClass st sid (f "classId")

/-- Inbound events of one connection. -/
inductive InEvent where
  | joinClass (payload : Payload)
  | sendMessage (payload : Payload)
  | toggleMic (payload : Payload)
  | toggleVideo (payload : Payload)
  | disconnect
  | studentSendCount (payload : Payload)
  | leaveClass (payload : Payload)
deriving DecidableEq, Repr

/-- Dispatch of one inbound event arriving on connection `sid`. -/
def handle (st : State) (sid : String) (clk : Clock) : InEvent → Result
  | InEvent.joinClass payload => onJoinClass st sid clk payload
  | InEvent.sendMessage payload => onSendMessage st clk payload
  | InEvent.toggleMic payload => onToggleMic st sid payload
  | InEvent.toggleVideo payload => onToggleVideo st sid payload
  | InEvent.disconnect => disconnect st sid
  | InEvent.studentSendCount payload => onStudentSendCount st sid payload
  | InEvent.leaveClass payload => onLeaveClass st sid payload

/-- The events of a trace are handled one after the other; the state is
threaded through and the emissions are collected in order. -/
def run (st : State) : List (String × Clock × InEvent) → Result
  | [] => Except.ok (st, [])
  | (sid, clk, ev) :: rest =>
    match handle st sid clk ev with
    | Except.error e => Except.error e
    | Except.ok (st1, emits) =>
      match run st1 rest with
      | Except.error e => Except.error e
      | Except.ok (st2, emits1) => Except.ok (st2, emits ++ emits1)

/-! ## Notions used in the statements -/

/-- The record stored for connection `sid` in room `classId`: `none` when the
room does not exist or holds no entry for `sid`. -/
def State.record (st : State) (classId : JSVal) (sid : String) : Option Participant :=
  (JSMap.get st.rooms classId).bind (fun room => JSMap.get room sid)

/-- Well-formed states: the registry and every room in it are `Map`s, that
is, no key occurs twice. -/
def State.WF (st : State) : Prop :=
  JSMap.NodupKeys st.rooms ∧ ∀ e ∈ st.rooms, JSMap.NodupKeys e.2

/-- Payload of a `join-class` event with string fields. -/
def joinPayload (classId userName userRole peerId : String) : Payload :=
  Payload.object [("classId", JSVal.str classId), ("userName", JSVal.str userName),
    ("userRole", JSVal.str userRole), ("peerId", JSVal.str peerId)]

/-- Payload carrying only a class id, as sent with `leave-class`. -/
def classPayload (classId : String) : Payload :=
  Payload.object [("classId", JSVal.str classId)]

/-- Record of Alice as stored by her join at time `t`. -/
def alice (t : Nat) : Participant :=
  { id := "A", name := JSVal.str "Alice", role := JSVal.str "teacher", peerId := JSVal.str "p1",
    isMuted := JSVal.bool false, isVideoOn := JSVal.bool true, joinedAt := t }

/-- Record of Bob as stored by his join at time `t`. -/
def bob (t : Nat) : Participant :=
  { id := "B", name := JSVal.str "Bob", role := JSVal.str "student", peerId := JSVal.str "p2",
    isMuted := JSVal.bool false, isVideoOn := JSVal.bool true, joinedAt := t }

/-- The state in which Alice is alone in room "math101". -/
def aliceAlone : State :=
  { rooms := [(JSVal.str "math101", [("A", alice 1000)])], subs := [("A", JSVal.str "math101")] }

/-- The state in which Alice and Bob are in room "math101". -/
def aliceAndBob : State :=
  { rooms := [(JSVal.str "math101", [("A", alice 1000), ("B", bob 2000)])],
    subs := [("A", JSVal.str "math101"), ("B", JSVal.str "math101")] }

/-- What the `disconnect` callback leaves of a room it visits: the room
without the entry of `sid`, or nothing when that entry was the last one. -/
def roomAfterDisconnect (sid : String) (room : Room) : Option Room :=
  if JSMap.has room sid then
    (if JSMap.size (JSMap.delete room sid) = 0 then none else some (JSMap.delete room sid))
  else some room

/-- The `user-left` emission of the `disconnect` callback for a room it visits. -/
def userLeftEmits (sid : String) (classId : JSVal) (room : Room) : List Emit :=
  match JSMap.get room sid with
  | some participant =>
    [ { target := Target.roomExcept classId sid,
        event := OutEvent.userLeft sid participant.name participant.peerId } ]
  | none => []

/-! ## Transport and traces -/

/-- What Socket.IO does to the subscriptions when a connection closes: the
socket leaves all its rooms before the `disconnect` event is fired. -/
def dropSubscriptions (subs : List (String × JSVal)) (sid : String) : List (String × JSVal) :=
  subs.filter (fun e => decide (e.1 ≠ sid))

/-- What the transport delivers on one connection: the opening of the
connection, or an inbound event. -/
inductive TransportEvent where
  | connect
  | inbound (ev : InEvent)
deriving DecidableEq, Repr

/-- One step of the transport on connection `sid`. On `connect` Socket.IO
subscribes the socket to the room named by its own id and then runs the
callback of `io.on('connection')` (line 24), which only registers the
handlers. A closing connection first loses all its subscriptions, then its
`disconnect` handler runs. Every other event goes to `handle`. -/
def handleOnTransport (st : State) (sid : String) (clk : Clock) : TransportEvent → Result
  | TransportEvent.connect =>
    Except.ok ({ st with subs := subscribe st.subs sid (JSVal.str sid) }, [])
  | TransportEvent.inbound InEvent.disconnect =>
    disconnect { st with subs := dropSubscriptions st.subs sid } sid
  | TransportEvent.inbound ev => handle st sid clk ev

/-- A trace of connections and events as the transport delivers them. -/
def runOnTransport (st : State) : List (String × Clock × TransportEvent) → Result
  | [] => Except.ok (st, [])
  | (sid, clk, ev) :: rest =>
    match handleOnTransport st sid clk ev with
    | Except.error e => Except.error e
    | Except.ok (st1, emits) =>
      match runOnTransport st1 rest with
      | Except.error e => Except.error e
      | Except.ok (st2, emits1) => Except.ok (st2, emits ++ emits1)

/-- The connections an emission is delivered to, given the subscriptions. -/
def recipients (subs : List (String × JSVal)) : Target → List String
  | Target.socket sid => [sid]
  | Target.roomExcept classId sender =>
    (subs.filter (fun e => decide (e.2 = classId ∧ e.1 ≠ sender))).map Prod.fst
  | Target.room classId => (subs.filter (fun e => decide (e.2 = classId))).map Prod.fst

/-- Payloads on which parameter destructuring raises. -/
def Payload.isNullish : Payload → Bool
  | Payload.value v => v.isNullish
  | Payload.object _ => false

/-- Events whose payload, if any, can be destructured. -/
def InEvent.destructurable : InEvent → Bool
  | InEvent.joinClass payload => !payload.isNullish
  | InEvent.sendMessage payload => !payload.isNullish
  | InEvent.toggleMic payload => !payload.isNullish
  | InEvent.toggleVideo payload => !payload.isNullish
  | InEvent.disconnect => true
  | InEvent.studentSendCount payload => !payload.isNullish
  | InEvent.leaveClass payload => !payload.isNullish

/-- The subscriptions mirror the registry: a connection is subscribed to a
room exactly when it has a record in it. -/
def State.Mirrors (st : State) : Prop :=
  ∀ (classId : JSVal) (sid : String), (sid, classId) ∈ st.subs ↔ (st.record classId sid).isSome

/-- The subscriptions mirror the registry up to own-id rooms: a connection
with a record in a room is subscribed to it, and a connection subscribed to a
room has a record in it unless the room is the one named by its own id. -/
def State.MirrorsUpToOwnRoom (st : State) : Prop :=
  (∀ (classId : JSVal) (sid : String),
    (st.record classId sid).isSome → (sid, classId) ∈ st.subs) ∧
  (∀ (classId : JSVal) (sid : String),
    (sid, classId) ∈ st.subs → (st.record classId sid).isSome ∨ classId = JSVal.str sid)

/-- Every record is stored under the key that equals its `id`. -/
def State.KeysMatchIds (st : State) : Prop :=
  ∀ e ∈ st.rooms, ∀ q ∈ e.2, q.2.id = q.1

/-- The state in which Alice is in the rooms "math101" and "physics", and Bob
is in "math101". -/
def aliceInTwoRooms : State :=
  { rooms := [(JSVal.str "math101", [("A", alice 1000), ("B", bob 2000)]),
              (JSVal.str "physics", [("A", alice 3000)])],
    subs := [("A", JSVal.str "math101"), ("B", JSVal.str "math101"),
             ("A", JSVal.str "physics")] }

/-- Payload of a `send-message` event with string fields. -/
def messagePayload (classId message sender : String) : Payload :=
  Payload.object [("classId", JSVal.str classId), ("message", JSVal.str message),
    ("sender", JSVal.str sender)]

/-- A sample session: Alice and Bob join "math101", Bob mutes himself, Alice
leaves the room, and Bob's connection closes. -/
def sampleTrace : List (String × Clock × InEvent) :=
  [ ("A", ⟨1000, "10:00"⟩, InEvent.joinClass (joinPayload "math101" "Alice" "teacher" "p1")),
    ("B", ⟨2000, "10:01"⟩, InEvent.joinClass (joinPayload "math101" "Bob" "student" "p2")),
    ("B", ⟨3000, "10:02"⟩, InEvent.toggleMic
      (Payload.object [("classId", JSVal.str "math101"), ("isMuted", JSVal.bool true)])),
    ("A", ⟨4000, "10:03"⟩, InEvent.leaveClass (classPayload "math101")),
    ("B", ⟨5000, "10:04"⟩, InEvent.disconnect) ]

/-- Transport events whose payload, if any, can be destructured. -/
def TransportEvent.destructurable : TransportEvent → Bool
  | TransportEvent.connect => true
  | TransportEvent.inbound ev => ev.destructurable

/-- Alice and Bob connect; Bob then reports a count to the room named by
Alice's socket id. -/
def ownRoomTrace : List (String × Clock × TransportEvent) :=
  [ ("A", ⟨1000, "10:00"⟩, TransportEvent.connect),
    ("B", ⟨2000, "10:01"⟩, TransportEvent.connect),
    ("B", ⟨3000, "10:02"⟩, TransportEvent.inbound (InEvent.studentSendCount
      (Payload.object [("classId", JSVal.str "A"), ("count", JSVal.num 3),
        ("peerId", JSVal.str "p2")]))) ]

/-- A sample session on the transport: Alice and Bob connect and join
"math101", Bob mutes himself, and Bob's connection closes; Alice stays. -/
def sampleTransportTrace : List (String × Clock × TransportEvent) :=
  [ ("A", ⟨1000, "10:00"⟩, TransportEvent.connect),
    ("A", ⟨1000, "10:00"⟩, TransportEvent.inbound
      (InEvent.joinClass (joinPayload "math101" "Alice" "teacher" "p1"))),
    ("B", ⟨2000, "10:01"⟩, TransportEvent.connect),
    ("B", ⟨2000, "10:01"⟩, TransportEvent.inbound
      (InEvent.joinClass (joinPayload "math101" "Bob" "student" "p2"))),
    ("B", ⟨3000, "10:02"⟩, TransportEvent.inbound (InEvent.toggleMic
      (Payload.object [("classId", JSVal.str "math101"), ("isMuted", JSVal.bool true)]))),
    ("B", ⟨5000, "10:04"⟩, TransportEvent.inbound InEvent.disconnect) ]

/-! ## Handlers on field values of any kind

The handlers above take primitive field values. A client can also put an
object or an array into a field. Such a value takes part in a handler in two
ways only: as a `Map` key it is equal to itself alone, and the template
literals of the log lines 49 and 149 convert it to a string, which raises a
`TypeError` when the conversion fails, as for an object parsed from
`{"toString": null}`. The definitions of this section follow the handlers line
by line with field values of this larger kind, the log lines included. They
keep the registry, the emissions and the exception; the calls `socket.join`
and `socket.leave` accept any value, cannot raise, and are read by no handler. -/

/-- A field value as parsed from the wire: a primitive, or an object or array.
Of an object the model keeps its identity and whether conversion to a string
succeeds. -/
inductive WireVal where
  | prim (v : JSVal)
  | object (ref : Nat) (convertible : Bool)
deriving DecidableEq, Repr

namespace WireVal

/-- Whether the conversion to a string in a template literal succeeds. -/
def converts : WireVal → Bool
  | prim _ => true
  | object _ convertible => convertible

/-- Truthiness; every object is truthy. -/
def truthy : WireVal → Bool
  | prim v => v.truthy
  | object _ _ => true

/-- The test `typeof v === 'number'`. -/
def isNumber : WireVal → Bool
  | prim v => v.isNumber
  | object _ _ => false

/-- The loose comparison `v == null`. -/
def isNullish : WireVal → Bool
  | prim v => v.isNullish
  | object _ _ => false

end WireVal

/-- The first argument of an event: a primitive, or an object (or array)
with named fields of any kind. -/
inductive WirePayload where
  | value (v : JSVal)
  | object (fields : List (String × WireVal))
deriving DecidableEq, Repr

/-- Property read on a parsed object; a missing property is `undefined`. -/
def lookupWireField (key : String) : List (String × WireVal) → WireVal
  | [] => WireVal.prim JSVal.undefined
  | (k, v) :: rest => if k = key then v else lookupWireField key rest

/-- Parameter destructuring, as `Payload.destructure`. -/
def WirePayload.destructure : WirePayload → Except JSError (String → WireVal)
  | WirePayload.value JSVal.undefined => Except.error JSError.typeError
  | WirePayload.value JSVal.null => Except.error JSError.typeError
  | WirePayload.value _ => Except.ok (fun _ => WireVal.prim JSVal.undefined)
  | WirePayload.object fields => Except.ok (fun key => lookupWireField key fields)

/-- The value a destructured name receives; `undefined` when nothing can be read. -/
def WirePayload.field (payload : WirePayload) (key : String) : WireVal :=
  match payload with
  | WirePayload.value _ => WireVal.prim JSVal.undefined
  | WirePayload.object fields => lookupWireField key fields

/-- The participant record with field values of any kind. -/
structure WireParticipant where
  id : String
  name : WireVal
  role : WireVal
  peerId : WireVal
  isMuted : WireVal
  isVideoOn : WireVal
  joinedAt : Nat
deriving DecidableEq, Repr

/-- One room with records of any kind. -/
abbrev WireRoom := JSMap String WireParticipant

/-- The registry `rooms` keyed by class ids of any kind. -/
abbrev WireRegistry := JSMap WireVal WireRoom

/-- The chat message with field values of any kind. -/
structure WireChatMessage where
  id : Nat
  sender : WireVal
  text : WireVal
  time : String
deriving DecidableEq, Repr

/-- Addressing of an emission, as `Target`. -/
inductive WireTarget where
  | socket (sid : String)
  | roomExcept (classId : WireVal) (sender : String)
  | room (classId : WireVal)
deriving DecidableEq, Repr

/-- Outbound events, as `OutEvent`. -/
inductive WireOutEvent where
  | roomParticipants (participants : List WireParticipant)
  | userJoined (participant : WireParticipant)
  | newMessage (chatMessage : WireChatMessage)
  | participantUpdatedMic (id : String) (isMuted : WireVal)
  | participantUpdatedVideo (id : String) (isVideoOn : WireVal)
  | userLeft (id : String) (name : WireVal) (peerId : WireVal)
  | studentCountUpdate (peerId : WireVal) (count : WireVal)
deriving DecidableEq, Repr

/-- One outbound emission, as `Emit`. -/
structure WireEmit where
  target : WireTarget
  event : WireOutEvent
deriving DecidableEq, Repr

/-- Outcome of one handler invocation: an exception, or the registry after
the event and the emissions. -/
abbrev WireResult := Except JSError (WireRegistry × List WireEmit)

/-- Body of the `join-class` handler (lines 29-56), log line 49 included. -/
def joinClassWire (rooms : WireRegistry) (sid : String) (clk : Clock)
    (classId userName userRole peerId : WireVal) : WireResult :=
  -- if (!rooms.has(classId)) rooms.set(classId, new Map())
  let rooms1 := if JSMap.has rooms classId then rooms else JSMap.set rooms classId []
  let participant : WireParticipant :=
    { id := sid, name := userName, role := userRole, peerId := peerId,
      isMuted := WireVal.prim (JSVal.bool false), isVideoOn := WireVal.prim (JSVal.bool true),
      joinedAt := clk.now }
  -- rooms.get(classId).set(socket.id, participant)
  match JSMap.get rooms1 classId with
  | none => Except.error JSError.typeError
  | some room =>
    let rooms2 := JSMap.set rooms1 classId (JSMap.set room sid participant)
    -- console.log with the template literal over userName, socket.id, peerId, classId
    if userName.converts && peerId.converts && classId.converts then
      -- Array.from(rooms.get(classId).values())
      match JSMap.get rooms2 classId with
      | none => Except.error JSError.typeError
      | some room2 =>
        Except.ok (rooms2,
          [ { target := WireTarget.socket sid,
              event := WireOutEvent.roomParticipants (JSMap.values room2) },
            { target := WireTarget.roomExcept classId sid,
              event := WireOutEvent.userJoined participant } ])
    else Except.error JSError.typeError

/-- Body of the `send-message` handler (lines 61-69). -/
def sendMessageWire (rooms : WireRegistry) (clk : Clock) (classId message sender : WireVal) :
    WireResult :=
  let chatMessage : WireChatMessage :=
    { id := clk.now, sender := sender, text := message, time := clk.localeTime }
  Except.ok (rooms,
    [ { target := WireTarget.room classId, event := WireOutEvent.newMessage chatMessage } ])

/-- Body of the `toggle-mic` handler (lines 74-84). -/
def toggleMicWire (rooms : WireRegistry) (sid : String) (classId isMuted : WireVal) :
    WireResult :=
  match JSMap.get rooms classId with
  | none => Except.ok (rooms, [])
  | some room =>
    if JSMap.has room sid then
      match JSMap.get room sid with
      | none => Except.error JSError.typeError
      | some participant =>
        let participant1 : WireParticipant := { participant with isMuted := isMuted }
        Except.ok
          (JSMap.set rooms classId (JSMap.set room sid participant1),
           [ { target := WireTarget.roomExcept classId sid,
               event := WireOutEvent.participantUpdatedMic sid isMuted } ])
    else Except.ok (rooms, [])

/-- Body of the `toggle-video` handler (lines 89-99). -/
def toggleVideoWire (rooms : WireRegistry) (sid : String) (classId isVideoOn : WireVal) :
    WireResult :=
  match JSMap.get rooms classId with
  | none => Except.ok (rooms, [])
  | some room =>
    if JSMap.has room sid then
      match JSMap.get room sid with
      | none => Except.error JSError.typeError
      | some participant =>
        let participant1 : WireParticipant := { participant with isVideoOn := isVideoOn }
        Except.ok
          (JSMap.set rooms classId (JSMap.set room sid participant1),
           [ { target := WireTarget.roomExcept classId sid,
               event := WireOutEvent.participantUpdatedVideo sid isVideoOn } ])
    else Except.ok (rooms, [])

/-- Callback of `rooms.forEach` in the `disconnect` handler (lines 107-124). -/
def disconnectVisitWire (sid : String) (classId : WireVal) (room : WireRoom) :
    Except JSError (Option WireRoom × List WireEmit) :=
  if JSMap.has room sid then
    match JSMap.get room sid with
    | none => Except.error JSError.typeError
    | some participant =>
      let room1 := JSMap.delete room sid
      let left : WireEmit :=
        { target := WireTarget.roomExcept classId sid,
          event := WireOutEvent.userLeft sid participant.name participant.peerId }
      if JSMap.size room1 = 0 then Except.ok (none, [left])
      else Except.ok (some room1, [left])
  else Except.ok (some room, [])

/-- The loop `rooms.forEach` of the `disconnect` handler. -/
def disconnectRoomsWire (sid : String) : WireRegistry → WireResult
  | [] => Except.ok ([], [])
  | (classId, room) :: rest =>
    match disconnectVisitWire sid classId room with
    | Except.error e => Except.error e
    | Except.ok (kept, emits) =>
      match disconnectRoomsWire sid rest with
      | Except.error e => Except.error e
      | Except.ok (rest1, emits1) =>
        match kept with
        | none => Except.ok (rest1, emits ++ emits1)
        | some room1 => Except.ok ((classId, room1) :: rest1, emits ++ emits1)

/-- Body of the `student-send-count` handler (lines 129-131). -/
def studentSendCountWire (rooms : WireRegistry) (sid : String)
    (classId count peerId : WireVal) : WireResult :=
  if classId.truthy && !peerId.isNullish && count.isNumber then
    Except.ok (rooms, [ { target := WireTarget.roomExcept classId sid,
                          event := WireOutEvent.studentCountUpdate peerId count } ])
  else Except.ok (rooms, [])

/-- Body of the `leave-class` handler (lines 136-150), log line 149 included. -/
def leaveClassWire (rooms : WireRegistry) (sid : String) (classId : WireVal) : WireResult :=
  match JSMap.get rooms classId with
  | none => Except.ok (rooms, [])
  | some room =>
    if JSMap.has room sid then
      match JSMap.get room sid with
      | none => Except.error JSError.typeError
      | some participant =>
        let rooms1 := JSMap.set rooms classId (JSMap.delete room sid)
        -- console.log with the template literal over participant.name and classId
        if participant.name.converts && classId.converts then
          Except.ok (rooms1,
            [ { target := WireTarget.roomExcept classId sid,
                event := WireOutEvent.userLeft sid participant.name participant.peerId } ])
        else Except.error JSError.typeError
    else Except.ok (rooms, [])

/-- The handler of `join-class` with its parameter destructuring (line 28). -/
def onJoinClassWire (rooms : WireRegistry) (sid : String) (clk : Clock)
    (payload : WirePayload) : WireResult :=
  match payload.destructure with
  | Except.error e => Except.error e
  | Except.ok f =>
    joinClassWire rooms sid clk (f "classId") (f "userName") (f "userRole") (f "peerId")

/-- The handler of `send-message` (line 60). -/
def onSendMessageWire (rooms : WireRegistry) (clk : Clock) (payload : WirePayload) :
    WireResult :=
  match payload.destructure with
  | Except.error e => Except.error e
  | Except.ok f => sendMessageWire rooms clk (f "classId") (f "message") (f "sender")

/-- The handler of `toggle-mic` (line 73). -/
def onToggleMicWire (rooms : WireRegistry) (sid : String) (payload : WirePayload) :
    WireResult :=
  match payload.destructure with
  | Except.error e => Except.error e
  | Except.ok f => toggleMicWire rooms sid (f "classId") (f "isMuted")

/-- The handler of `toggle-video` (line 88). -/
def onToggleVideoWire (rooms : WireRegistry) (sid : String) (payload : WirePayload) :
    WireResult :=
  match payload.destructure with
  | Except.error e => Except.error e
  | Except.ok f => toggleVideoWire rooms sid (f "classId") (f "isVideoOn")

/-- The handler of `student-send-count` (line 128). -/
def onStudentSendCountWire (rooms : WireRegistry) (sid : String) (payload : WirePayload) :
    WireResult :=
  match payload.destructure with
  | Except.error e => Except.error e
  | Except.ok f => studentSendCountWire rooms sid (f "classId") (f "count") (f "peerId")

/-- The handler of `leave-class` (line 135). -/
def onLeaveClassWire (rooms : WireRegistry) (sid : String) (payload : WirePayload) :
    WireResult :=
  match payload.destructure with
  | Except.error e => Except.error e
  | Except.ok f => leaveClassWire rooms sid (f "classId")

/-- Inbound events with payloads of any kind. -/
inductive WireEvent where
  | joinClass (payload : WirePayload)
  | sendMessage (payload : WirePayload)
  | toggleMic (payload : WirePayload)
  | toggleVideo (payload : WirePayload)
  | disconnect
  | studentSendCount (payload : WirePayload)
  | leaveClass (payload : WirePayload)
deriving DecidableEq, Repr

/-- Dispatch of one inbound event arriving on connection `sid`. -/
def handleWire (rooms : WireRegistry) (sid : String) (clk : Clock) : WireEvent → WireResult
  | WireEvent.joinClass payload => onJoinClassWire rooms sid clk payload
  | WireEvent.sendMessage payload => onSendMessageWire rooms clk payload
  | WireEvent.toggleMic payload => onToggleMicWire rooms sid payload
  | WireEvent.toggleVideo payload => onToggleVideoWire rooms sid payload
  | WireEvent.disconnect => disconnectRoomsWire sid rooms
  | WireEvent.studentSendCount payload => onStudentSendCountWire rooms sid payload
  | WireEvent.leaveClass payload => onLeaveClassWire rooms sid payload

/-- The events of a trace are handled one after the other; an exception ends
the run. -/
def runWire (rooms : WireRegistry) : List (String × Clock × WireEvent) → WireResult
  | [] => Except.ok (rooms, [])
  | (sid, clk, ev) :: rest =>
    match handleWire rooms sid clk ev with
    | Except.error e => Except.error e
    | Except.ok (rooms1, emits) =>
      match runWire rooms1 rest with
      | Except.error e => Except.error e
      | Except.ok (rooms2, emits1) => Except.ok (rooms2, emits ++ emits1)

/-- Payloads that can be destructured: all but `undefined` and `null`. -/
def WirePayload.destructurable : WirePayload → Bool
  | WirePayload.value v => !v.isNullish
  | WirePayload.object _ => true

/-- Payloads of `join-class` whose logged fields convert to a string. -/
def WirePayload.loggable (payload : WirePayload) : Bool :=
  (payload.field "userName").converts && (payload.field "peerId").converts
    && (payload.field "classId").converts

/-- Events that raise in no handler: the payload, if any, can be
destructured, and for `join-class` the logged fields convert to a string. -/
def WireEvent.acceptable : WireEvent → Bool
  | WireEvent.joinClass payload => payload.destructurable && payload.loggable
  | WireEvent.sendMessage payload => payload.destructurable
  | WireEvent.toggleMic payload => payload.destructurable
  | WireEvent.toggleVideo payload => payload.destructurable
  | WireEvent.disconnect => true
  | WireEvent.studentSendCount payload => payload.destructurable
  | WireEvent.leaveClass payload => payload.destructurable

/-- What every registry reached without an exception satisfies: the room keys
and the names of the stored records convert to a string. -/
def WireRegistry.Loggable (rooms : WireRegistry) : Prop :=
  ∀ e ∈ rooms, e.1.converts = true ∧ ∀ q ∈ e.2, q.2.name.converts = true

/-- A `join-class` payload whose `userName` is the object parsed from
`{"toString": null}`. -/
def unprintableNamePayload : WirePayload :=
  WirePayload.object
    [ ("classId", WireVal.prim (JSVal.str "math101")), ("userName", WireVal.object 0 false),
      ("userRole", WireVal.prim (JSVal.str "student")),
      ("peerId", WireVal.prim (JSVal.str "p2")) ]

/-- A session with payloads of several kinds: Alice joins with an array as
user name, Bob sends a number as payload of `toggle-mic`, Alice sends a chat
message whose text is an object, and leaves. -/
def sampleWireTrace : List (String × Clock × WireEvent) :=
  [ ("A", ⟨1000, "10:00"⟩, WireEvent.joinClass (WirePayload.object
      [ ("classId", WireVal.prim (JSVal.str "math101")), ("userName", WireVal.object 1 true),
        ("peerId", WireVal.prim (JSVal.str "p1")) ])),
    ("B", ⟨2000, "10:01"⟩, WireEvent.toggleMic (WirePayload.value (JSVal.num 7))),
    ("A", ⟨3000, "10:02"⟩, WireEvent.sendMessage (WirePayload.object
      [ ("classId", WireVal.prim (JSVal.str "math101")), ("message", WireVal.object 2 false) ])),
    ("A", ⟨4000, "10:03"⟩, WireEvent.leaveClass (WirePayload.object
      [ ("classId", WireVal.prim (JSVal.str "math101")) ])) ]

/-- A registry in which Alice, who joined with an array as user name, is
alone in "math101". -/
def aliceAloneWire : WireRegistry :=
  [ (WireVal.prim (JSVal.str "math101"),
     [ ("A", { id := "A", name := WireVal.object 1 true, role := WireVal.prim JSVal.undefined,
               peerId := WireVal.prim (JSVal.str "p1"),
               isMuted := WireVal.prim (JSVal.bool false),
               isVideoOn := WireVal.prim (JSVal.bool true), joinedAt := 1000 }) ]) ]

/-- A payload naming "math101" whose other fields are missing or wrong-typed:
`isMuted` holds the object parsed from `{"toString": null}`. -/
def wrongTypedPayload : WirePayload :=
  WirePayload.object
    [ ("classId", WireVal.prim (JSVal.str "math101")), ("isMuted", WireVal.object 3 false),
      ("count", WireVal.prim (JSVal.str "three")) ]

/-! ## Lemmas on `Map` operations -/

namespace JSMap

variable {κ ν : Type} [DecidableEq κ]

theorem has_iff_mem_keys (m : JSMap κ ν) (key : κ) : has m key = true ↔ key ∈ keys m := by
  induction m with
  | nil => simp [has, keys]
  | cons e rest ih =>
    obtain ⟨k, v⟩ := e
    by_cases h : k = key
    · simp [has, keys, h]
    · have hne : ¬ key = k := fun h1 => h h1.symm
      simpa [has, keys, h, hne] using ih

theorem get_isSome_eq_has (m : JSMap κ ν) (key : κ) : (get m key).isSome = has m key := by
  induction m with
  | nil => simp [has, get]
  | cons e rest ih =>
    obtain ⟨k, v⟩ := e
    by_cases h : k = key
    · simp [has, get, h]
    · simpa [has, get, h] using ih

theorem get_eq_none_of_has_false {m : JSMap κ ν} {key : κ} (h : has m key = false) :
    get m key = none := by
  have h1 := get_isSome_eq_has m key
  rw [h] at h1
  cases hg : get m key with
  | none => rfl
  | some v => rw [hg] at h1; simp at h1

theorem has_false_of_get_eq_none {m : JSMap κ ν} {key : κ} (h : get m key = none) :
    has m key = false := by
  have h1 := get_isSome_eq_has m key
  rw [h] at h1
  simpa using h1.symm

theorem has_true_of_get_eq_some {m : JSMap κ ν} {key : κ} {v : ν} (h : get m key = some v) :
    has m key = true := by
  have h1 := get_isSome_eq_has m key
  rw [h] at h1
  simpa using h1.symm

theorem exists_get_of_has {m : JSMap κ ν} {key : κ} (h : has m key = true) :
    ∃ v, get m key = some v := by
  have h1 := get_isSome_eq_has m key
  rw [h] at h1
  exact Option.isSome_iff_exists.mp h1

theorem get_set_self (m : JSMap κ ν) (key : κ) (val : ν) : get (set m key val) key = some val := by
  induction m with
  | nil => simp [set, get]
  | cons e rest ih =>
    obtain ⟨k, v⟩ := e
    by_cases h : k = key
    · simp [set, get, h]
    · simpa [set, get, h] using ih

theorem get_set_ne (m : JSMap κ ν) {key other : κ} (val : ν) (hne : other ≠ key) :
    get (set m key val) other = get m other := by
  induction m with
  | nil =>
    have h : ¬ key = other := fun h1 => hne h1.symm
    simp [set, get, h]
  | cons e rest ih =>
    obtain ⟨k, v⟩ := e
    by_cases h : k = key
    · have h2 : ¬ key = other := fun h1 => hne h1.symm
      simp [set, get, h, h2]
    · by_cases h3 : k = other
      · subst h3
        simp [set, get, h]
      · simpa [set, get, h, h3] using ih

theorem has_set_self (m : JSMap κ ν) (key : κ) (val : ν) : has (set m key val) key = true :=
  has_true_of_get_eq_some (get_set_self m key val)

theorem set_set (m : JSMap κ ν) (key : κ) (v w : ν) :
    set (set m key v) key w = set m key w := by
  induction m with
  | nil => simp [set]
  | cons e rest ih =>
    obtain ⟨k, u⟩ := e
    by_cases h : k = key
    · simp [set, h]
    · simpa [set, h] using ih

theorem keys_set (m : JSMap κ ν) (key : κ) (val : ν) :
    keys (set m key val) = if has m key then keys m else keys m ++ [key] := by
  induction m with
  | nil => simp [set, keys, has]
  | cons e rest ih =>
    obtain ⟨k, u⟩ := e
    by_cases h : k = key
    · simp [set, keys, has, h]
    · have ih1 : List.map Prod.fst (set rest key val)
          = if has rest key then List.map Prod.fst rest else List.map Prod.fst rest ++ [key] := ih
      by_cases hh : has rest key = true
      · simp [set, keys, has, h, ih1, hh]
      · simp [set, keys, has, h, ih1, hh]

theorem values_set_of_has_false (m : JSMap κ ν) (key : κ) (val : ν) (h : has m key = false) :
    values (set m key val) = values m ++ [val] := by
  induction m with
  | nil => simp [set, values]
  | cons e rest ih =>
    obtain ⟨k, u⟩ := e
    by_cases hk : k = key
    · simp [has, hk] at h
    · have h1 : has rest key = false := by simpa [has, hk] using h
      have ih1 : List.map Prod.snd (set rest key val) = List.map Prod.snd rest ++ [val] := ih h1
      simp [set, values, hk, ih1]

theorem size_set (m : JSMap κ ν) (key : κ) (val : ν) :
    size (set m key val) = if has m key then size m else size m + 1 := by
  have h := congrArg List.length (keys_set m key val)
  simp only [keys, List.length_map] at h
  by_cases hh : has m key = true
  · simpa [size, hh] using h
  · simpa [size, hh] using h

theorem nodupKeys_set {m : JSMap κ ν} (key : κ) (val : ν) (h : NodupKeys m) :
    NodupKeys (set m key val) := by
  unfold NodupKeys at *
  rw [keys_set]
  by_cases hh : has m key = true
  · simpa [hh] using h
  · have hnot : key ∉ keys m := fun hmem => hh ((has_iff_mem_keys m key).mpr hmem)
    simp only [hh]
    exact List.Nodup.append h (List.nodup_singleton key) (by simpa using hnot)

theorem delete_cons_self (rest : JSMap κ ν) (key : κ) (v : ν) :
    delete ((key, v) :: rest) key = delete rest key := by
  simp [delete]

theorem delete_cons_ne (rest : JSMap κ ν) {k key : κ} (v : ν) (h : k ≠ key) :
    delete ((k, v) :: rest) key = (k, v) :: delete rest key := by
  simp [delete, h]

theorem has_delete_self (m : JSMap κ ν) (key : κ) : has (delete m key) key = false := by
  cases hh : has (delete m key) key with
  | false => rfl
  | true =>
    have hmem := (has_iff_mem_keys _ _).mp hh
    simp [keys, delete] at hmem

theorem get_delete_ne (m : JSMap κ ν) {key other : κ} (hne : other ≠ key) :
    get (delete m key) other = get m other := by
  induction m with
  | nil => simp [delete, get]
  | cons e rest ih =>
    obtain ⟨k, v⟩ := e
    by_cases h : k = key
    · subst h
      rw [delete_cons_self, ih]
      have h2 : ¬ k = other := fun h1 => hne h1.symm
      simp [get, h2]
    · rw [delete_cons_ne rest v h]
      by_cases h3 : k = other
      · simp [get, h3]
      · simp [get, h3, ih]

theorem delete_of_has_false {m : JSMap κ ν} {key : κ} (h : has m key = false) :
    delete m key = m := by
  induction m with
  | nil => simp [delete]
  | cons e rest ih =>
    obtain ⟨k, v⟩ := e
    by_cases hk : k = key
    · simp [has, hk] at h
    · have h1 : has rest key = false := by simpa [has, hk] using h
      rw [delete_cons_ne rest v hk, ih h1]

theorem nodupKeys_delete {m : JSMap κ ν} (key : κ) (h : NodupKeys m) :
    NodupKeys (delete m key) := by
  unfold NodupKeys keys delete at *
  exact List.Nodup.sublist (List.Sublist.map Prod.fst (List.filter_sublist m)) h

theorem get_eq_none_of_not_mem_keys {m : JSMap κ ν} {key : κ} (h : key ∉ keys m) :
    get m key = none := by
  apply get_eq_none_of_has_false
  cases hh : has m key with
  | false => rfl
  | true => exact absurd ((has_iff_mem_keys m key).mp hh) h

end JSMap

/-! ## The `disconnect` loop -/

theorem disconnectVisit_eq (sid : String) (classId : JSVal) (room : Room) :
    disconnectVisit sid classId room
      = Except.ok (roomAfterDisconnect sid room, userLeftEmits sid classId room) := by
  unfold disconnectVisit roomAfterDisconnect userLeftEmits
  by_cases h : JSMap.has room sid = true
  · obtain ⟨p, hp⟩ := JSMap.exists_get_of_has h
    by_cases hs : JSMap.size (JSMap.delete room sid) = 0
    · simp [h, hp, hs]
    · simp [h, hp, hs]
  · have h1 : JSMap.has room sid = false := by simpa using h
    simp [h1, JSMap.get_eq_none_of_has_false h1]

theorem disconnectRooms_eq (sid : String) (rs : Registry) :
    disconnectRooms sid rs
      = Except.ok
          (rs.filterMap (fun e => (roomAfterDisconnect sid e.2).map (fun r => (e.1, r))),
           rs.flatMap (fun e => userLeftEmits sid e.1 e.2)) := by
  induction rs with
  | nil => simp [disconnectRooms]
  | cons e rest ih =>
    obtain ⟨classId, room⟩ := e
    simp only [disconnectRooms, disconnectVisit_eq, ih]
    cases h : roomAfterDisconnect sid room with
    | none => simp [h]
    | some r => simp [h]

theorem has_false_of_roomAfterDisconnect {sid : String} {room r : Room}
    (h : roomAfterDisconnect sid room = some r) : JSMap.has r sid = false := by
  unfold roomAfterDisconnect at h
  by_cases hh : JSMap.has room sid = true
  · by_cases hs : JSMap.size (JSMap.delete room sid) = 0
    · simp [hh, hs] at h
    · simp [hh, hs] at h
      rw [← h]
      exact JSMap.has_delete_self room sid
  · have h1 : JSMap.has room sid = false := by simpa using hh
    simp [h1] at h
    rw [← h]
    exact h1

theorem roomAfterDisconnect_of_has_false {sid : String} {room : Room}
    (h : JSMap.has room sid = false) : roomAfterDisconnect sid room = some room := by
  simp [roomAfterDisconnect, h]

theorem userLeftEmits_of_has_false {sid : String} (classId : JSVal) {room : Room}
    (h : JSMap.has room sid = false) : userLeftEmits sid classId room = [] := by
  simp [userLeftEmits, JSMap.get_eq_none_of_has_false h]

/-- A registry in which no room holds `sid` is left as it is by the loop, which emits nothing. -/
theorem disconnectRooms_of_absent (sid : String) (rs : Registry)
    (h : ∀ e ∈ rs, JSMap.has e.2 sid = false) :
    disconnectRooms sid rs = Except.ok (rs, []) := by
  induction rs with
  | nil => simp [disconnectRooms]
  | cons e rest ih =>
    obtain ⟨classId, room⟩ := e
    have h1 : JSMap.has room sid = false := h (classId, room) (List.mem_cons_self _ _)
    have h2 : ∀ e ∈ rest, JSMap.has e.2 sid = false :=
      fun e he => h e (List.mem_cons_of_mem _ he)
    simp [disconnectRooms, disconnectVisit_eq, ih h2, roomAfterDisconnect_of_has_false h1,
      userLeftEmits_of_has_false classId h1]

/-- Lookup in a registry after a per-room transformation that may drop rooms. -/
theorem get_filterMap_rooms (g : Room → Option Room) (rs : Registry)
    (hnd : JSMap.NodupKeys rs) (classId : JSVal) :
    JSMap.get (rs.filterMap (fun e => (g e.2).map (fun r => (e.1, r)))) classId
      = (JSMap.get rs classId).bind g := by
  induction rs with
  | nil => simp [JSMap.get]
  | cons e rest ih =>
    obtain ⟨k, room⟩ := e
    have hnd1 : k ∉ JSMap.keys rest ∧ JSMap.NodupKeys rest := by
      simpa [JSMap.NodupKeys, JSMap.keys] using hnd
    have ih1 := ih hnd1.2
    by_cases hk : k = classId
    · subst hk
      have hrest : JSMap.get rest k = none := JSMap.get_eq_none_of_not_mem_keys hnd1.1
      cases hg : g room with
      | none => simp [List.filterMap_cons, hg, JSMap.get, ih1, hrest]
      | some r => simp [List.filterMap_cons, hg, JSMap.get]
    · cases hg : g room with
      | none => simp [List.filterMap_cons, hg, JSMap.get, ih1, hk]
      | some r => simp [List.filterMap_cons, hg, JSMap.get, ih1, hk]

theorem disconnect_eq (st : State) (sid : String) :
    disconnect st sid
      = Except.ok
          ({ rooms := st.rooms.filterMap
                (fun e => (roomAfterDisconnect sid e.2).map (fun r => (e.1, r))),
             subs := st.subs },
           st.rooms.flatMap (fun e => userLeftEmits sid e.1 e.2)) := by
  simp only [disconnect, disconnectRooms_eq]

/-! ## Closed forms of the handlers -/

theorem JSMap.mem_of_get_eq_some {κ ν : Type} [DecidableEq κ] {m : JSMap κ ν} {key : κ} {v : ν}
    (h : JSMap.get m key = some v) : (key, v) ∈ m := by
  induction m with
  | nil => simp [JSMap.get] at h
  | cons e rest ih =>
    obtain ⟨k, u⟩ := e
    by_cases hk : k = key
    · simp [JSMap.get, hk] at h
      simp [hk, h]
    · simp [JSMap.get, hk] at h
      exact List.mem_cons_of_mem _ (ih h)

theorem subscribe_subscribe (subs : List (String × JSVal)) (sid : String) (classId : JSVal) :
    subscribe (subscribe subs sid classId) sid classId = subscribe subs sid classId := by
  unfold subscribe
  by_cases h : (sid, classId) ∈ subs
  · simp [h]
  · simp [h]

/-- The `join-class` handler always succeeds; its effect in closed form. -/
theorem joinClass_eq (st : State) (sid : String) (clk : Clock)
    (classId userName userRole peerId : JSVal) :
    joinClass st sid clk classId userName userRole peerId
      = Except.ok
          ({ rooms := JSMap.set st.rooms classId
                (JSMap.set ((JSMap.get st.rooms classId).getD []) sid
                  { id := sid, name := userName, role := userRole, peerId := peerId,
                    isMuted := JSVal.bool false, isVideoOn := JSVal.bool true,
                    joinedAt := clk.now }),
             subs := subscribe st.subs sid classId },
           [ { target := Target.socket sid,
               event := OutEvent.roomParticipants
                 (JSMap.values (JSMap.set ((JSMap.get st.rooms classId).getD []) sid
                   { id := sid, name := userName, role := userRole, peerId := peerId,
                     isMuted := JSVal.bool false, isVideoOn := JSVal.bool true,
                     joinedAt := clk.now })) },
             { target := Target.roomExcept classId sid,
               event := OutEvent.userJoined
                 { id := sid, name := userName, role := userRole, peerId := peerId,
                   isMuted := JSVal.bool false, isVideoOn := JSVal.bool true,
                   joinedAt := clk.now } } ]) := by
  unfold joinClass
  by_cases h : JSMap.has st.rooms classId = true
  · obtain ⟨room, hroom⟩ := JSMap.exists_get_of_has h
    simp [h, hroom, JSMap.get_set_self]
  · have h1 : JSMap.has st.rooms classId = false := by simpa using h
    simp [h1, JSMap.get_eq_none_of_has_false h1, JSMap.get_set_self, JSMap.set_set]

/-- The `toggle-mic` handler on a member, in closed form. -/
theorem toggleMic_of_member (st : State) (sid : String) (classId isMuted : JSVal)
    {room : Room} {p : Participant}
    (hroom : JSMap.get st.rooms classId = some room) (hp : JSMap.get room sid = some p) :
    toggleMic st sid classId isMuted
      = Except.ok
          ({ st with
              rooms := JSMap.set st.rooms classId (JSMap.set room sid { p with isMuted := isMuted }) },
           [ { target := Target.roomExcept classId sid,
               event := OutEvent.participantUpdatedMic sid isMuted } ]) := by
  simp [toggleMic, hroom, hp, JSMap.has_true_of_get_eq_some hp]

/-- The `toggle-video` handler on a member, in closed form. -/
theorem toggleVideo_of_member (st : State) (sid : String) (classId isVideoOn : JSVal)
    {room : Room} {p : Participant}
    (hroom : JSMap.get st.rooms classId = some room) (hp : JSMap.get room sid = some p) :
    toggleVideo st sid classId isVideoOn
      = Except.ok
          ({ st with
              rooms := JSMap.set st.rooms classId (JSMap.set room sid { p with isVideoOn := isVideoOn }) },
           [ { target := Target.roomExcept classId sid,
               event := OutEvent.participantUpdatedVideo sid isVideoOn } ]) := by
  simp [toggleVideo, hroom, hp, JSMap.has_true_of_get_eq_some hp]

/-- The `leave-class` handler on a member, in closed form. -/
theorem leaveClass_of_member (st : State) (sid : String) (classId : JSVal)
    {room : Room} {p : Participant}
    (hroom : JSMap.get st.rooms classId = some room) (hp : JSMap.get room sid = some p) :
    leaveClass st sid classId
      = Except.ok
          ({ rooms := JSMap.set st.rooms classId (JSMap.delete room sid),
             subs := unsubscribe st.subs sid classId },
           [ { target := Target.roomExcept classId sid,
               event := OutEvent.userLeft sid p.name p.peerId } ]) := by
  simp [leaveClass, hroom, hp, JSMap.has_true_of_get_eq_some hp]

/-- The three guarded handlers do nothing for a connection without a record in the room. -/
theorem guarded_of_not_member (st : State) (sid : String) (classId v : JSVal)
    (h : st.record classId sid = none) :
    toggleMic st sid classId v = Except.ok (st, []) ∧
    toggleVideo st sid classId v = Except.ok (st, []) ∧
    leaveClass st sid classId = Except.ok (st, []) := by
  unfold State.record at h
  cases hroom : JSMap.get st.rooms classId with
  | none => simp [toggleMic, toggleVideo, leaveClass, hroom]
  | some room =>
    rw [hroom] at h
    have hhas : JSMap.has room sid = false := JSMap.has_false_of_get_eq_none h
    simp [toggleMic, toggleVideo, leaveClass, hroom, hhas]

theorem record_eq_some_iff (st : State) (classId : JSVal) (sid : String) (p : Participant) :
    st.record classId sid = some p
      ↔ ∃ room, JSMap.get st.rooms classId = some room ∧ JSMap.get room sid = some p := by
  unfold State.record
  exact Option.bind_eq_some

/-- Records seen after one room has been replaced by a room that differs at one key only. -/
theorem record_after_update (st : State) (classId : JSVal) (sid : String) (room room1 : Room)
    (subs1 : List (String × JSVal))
    (hroom : JSMap.get st.rooms classId = some room)
    (hsame : ∀ c1, c1 ≠ sid → JSMap.get room1 c1 = JSMap.get room c1)
    (R1 : JSVal) (c1 : String) (hne : (R1, c1) ≠ (classId, sid)) :
    State.record { rooms := JSMap.set st.rooms classId room1, subs := subs1 } R1 c1
      = st.record R1 c1 := by
  unfold State.record
  by_cases hR : R1 = classId
  · subst hR
    have hc : c1 ≠ sid := fun hc => hne (by rw [hc])
    simp [JSMap.get_set_self, hroom, hsame c1 hc]
  · simp [JSMap.get_set_ne _ _ hR]

theorem destructure_ok_of_not_nullish (payload : Payload)
    (hu : payload ≠ Payload.value JSVal.undefined) (hn : payload ≠ Payload.value JSVal.null) :
    ∃ f, payload.destructure = Except.ok f := by
  cases payload with
  | object fields => exact ⟨_, rfl⟩
  | value v =>
    cases v with
    | undefined => exact absurd rfl hu
    | null => exact absurd rfl hn
    | bool b => exact ⟨_, rfl⟩
    | num n => exact ⟨_, rfl⟩
    | str s => exact ⟨_, rfl⟩

theorem toggleMic_total (st : State) (sid : String) (classId v : JSVal) :
    ∃ r, toggleMic st sid classId v = Except.ok r := by
  cases h : st.record classId sid with
  | none => exact ⟨_, (guarded_of_not_member st sid classId v h).1⟩
  | some p =>
    obtain ⟨room, hroom, hp⟩ := (record_eq_some_iff st classId sid p).mp h
    exact ⟨_, toggleMic_of_member st sid classId v hroom hp⟩

theorem toggleVideo_total (st : State) (sid : String) (classId v : JSVal) :
    ∃ r, toggleVideo st sid classId v = Except.ok r := by
  cases h : st.record classId sid with
  | none => exact ⟨_, (guarded_of_not_member st sid classId v h).2.1⟩
  | some p =>
    obtain ⟨room, hroom, hp⟩ := (record_eq_some_iff st classId sid p).mp h
    exact ⟨_, toggleVideo_of_member st sid classId v hroom hp⟩

theorem leaveClass_total (st : State) (sid : String) (classId : JSVal) :
    ∃ r, leaveClass st sid classId = Except.ok r := by
  cases h : st.record classId sid with
  | none => exact ⟨_, (guarded_of_not_member st sid classId JSVal.null h).2.2⟩
  | some p =>
    obtain ⟨room, hroom, hp⟩ := (record_eq_some_iff st classId sid p).mp h
    exact ⟨_, leaveClass_of_member st sid classId hroom hp⟩

theorem studentSendCount_total (st : State) (sid : String) (classId count peerId : JSVal) :
    ∃ r, studentSendCount st sid classId count peerId = Except.ok r := by
  unfold studentSendCount
  split
  · exact ⟨_, rfl⟩
  · exact ⟨_, rfl⟩

/-! ## Claims -/

/-- C1 (defect in `leave-class`): starting from the empty registry, Alice joins
room "math101" and then leaves it. The run succeeds, and room "math101" is still
present in the registry although it has zero participants. -/
theorem empty_room_persists_after_leave :
    ∃ st emits,
      run State.empty
        [ ("A", ⟨1000, "10:00"⟩, InEvent.joinClass (joinPayload "math101" "Alice" "teacher" "p1")),
          ("A", ⟨2000, "10:01"⟩, InEvent.leaveClass (classPayload "math101")) ]
        = Except.ok (st, emits)
      ∧ JSMap.has st.rooms (JSVal.str "math101") = true
      ∧ JSMap.get st.rooms (JSVal.str "math101") = some [] :=
  ⟨_, _, rfl, rfl, rfl⟩

/-- C2 (defect in `leave-class`): Alice is the only participant of "math101" and
leaves it with `leave-class`. Afterwards "math101" is still a key of the registry,
mapped to an empty room, and the number of rooms has not dropped. -/
theorem leave_by_last_member_keeps_room :
    ∃ st emits,
      leaveClass aliceAlone "A" (JSVal.str "math101") = Except.ok (st, emits)
      ∧ JSMap.keys st.rooms = [JSVal.str "math101"]
      ∧ JSMap.get st.rooms (JSVal.str "math101") = some []
      ∧ JSMap.size st.rooms = JSMap.size aliceAlone.rooms :=
  ⟨_, _, rfl, rfl, rfl, rfl⟩

/-- C3: for every registry with distinct room keys and every connection `c`,
`disconnect` succeeds and afterwards (1) no room holds a record for `c`, (2) a
room that held only `c` is gone, (3) a room that held `c` and someone else is
present and holds exactly its other entries, unchanged and in order, (4) a room
that did not hold `c` is unchanged, and no room appears that was not there. -/
theorem disconnect_removes_connection_everywhere (st : State) (c : String)
    (hnd : JSMap.NodupKeys st.rooms) :
    ∃ st1 emits, disconnect st c = Except.ok (st1, emits) ∧
      (∀ e ∈ st1.rooms, JSMap.has e.2 c = false) ∧
      (∀ R room, JSMap.get st.rooms R = some room → JSMap.has room c = true →
        (∀ k, JSMap.has room k = true → k = c) → JSMap.get st1.rooms R = none) ∧
      (∀ R room, JSMap.get st.rooms R = some room → JSMap.has room c = true →
        (∃ k, k ≠ c ∧ JSMap.has room k = true) →
        JSMap.get st1.rooms R = some (room.filter (fun e => decide (e.1 ≠ c)))) ∧
      (∀ R room, JSMap.get st.rooms R = some room → JSMap.has room c = false →
        JSMap.get st1.rooms R = some room) ∧
      (∀ R, JSMap.get st.rooms R = none → JSMap.get st1.rooms R = none) := by
  refine ⟨_, _, disconnect_eq st c, ?_, ?_, ?_, ?_, ?_⟩
  · intro e he
    obtain ⟨e0, _, h0⟩ := List.mem_filterMap.mp he
    cases hr : roomAfterDisconnect c e0.2 with
    | none => simp [hr] at h0
    | some r =>
      simp [hr] at h0
      rw [← h0]
      exact has_false_of_roomAfterDisconnect hr
  · intro R room hget hhas honly
    show JSMap.get (st.rooms.filterMap _) R = none
    rw [get_filterMap_rooms _ _ hnd, hget]
    have hempty : JSMap.delete room c = [] := by
      apply List.eq_nil_iff_forall_not_mem.mpr
      intro e he
      have hmem : e ∈ room ∧ e.1 ≠ c := by simpa [JSMap.delete] using he
      have hk : JSMap.has room e.1 = true :=
        (JSMap.has_iff_mem_keys room e.1).mpr (List.mem_map_of_mem Prod.fst hmem.1)
      exact hmem.2 (honly e.1 hk)
    simp [roomAfterDisconnect, hhas, hempty, JSMap.size]
  · intro R room hget hhas hother
    show JSMap.get (st.rooms.filterMap _) R = _
    rw [get_filterMap_rooms _ _ hnd, hget]
    obtain ⟨k, hk, hkhas⟩ := hother
    have hne : JSMap.size (JSMap.delete room c) ≠ 0 := by
      have h1 : JSMap.has (JSMap.delete room c) k = true := by
        obtain ⟨v, hv⟩ := JSMap.exists_get_of_has hkhas
        exact JSMap.has_true_of_get_eq_some ((JSMap.get_delete_ne room hk).trans hv)
      intro h0
      have hnil : JSMap.delete room c = [] := List.length_eq_zero.mp h0
      rw [hnil] at h1
      simp [JSMap.has] at h1
    have hr : roomAfterDisconnect c room = some (JSMap.delete room c) := by
      simp [roomAfterDisconnect, hhas, hne]
    simp only [Option.some_bind, hr]
    rfl
  · intro R room hget hhas
    show JSMap.get (st.rooms.filterMap _) R = _
    rw [get_filterMap_rooms _ _ hnd, hget]
    simp [roomAfterDisconnect_of_has_false hhas]
  · intro R hget
    show JSMap.get (st.rooms.filterMap _) R = none
    rw [get_filterMap_rooms _ _ hnd, hget]
    rfl

/-- C3, witness: Alice and Bob are in "math101" and Bob disconnects; the room
remains and holds exactly Alice. -/
theorem disconnect_removes_connection_everywhere_witness :
    JSMap.NodupKeys aliceAndBob.rooms ∧
    ∃ st1 emits, disconnect aliceAndBob "B" = Except.ok (st1, emits) ∧
      (∀ e ∈ st1.rooms, JSMap.has e.2 "B" = false) ∧
      (∀ R room, JSMap.get aliceAndBob.rooms R = some room → JSMap.has room "B" = true →
        (∀ k, JSMap.has room k = true → k = "B") → JSMap.get st1.rooms R = none) ∧
      (∀ R room, JSMap.get aliceAndBob.rooms R = some room → JSMap.has room "B" = true →
        (∃ k, k ≠ "B" ∧ JSMap.has room k = true) →
        JSMap.get st1.rooms R = some (room.filter (fun e => decide (e.1 ≠ "B")))) ∧
      (∀ R room, JSMap.get aliceAndBob.rooms R = some room → JSMap.has room "B" = false →
        JSMap.get st1.rooms R = some room) ∧
      (∀ R, JSMap.get aliceAndBob.rooms R = none → JSMap.get st1.rooms R = none) :=
  ⟨by simp [JSMap.NodupKeys, JSMap.keys, aliceAndBob],
   disconnect_removes_connection_everywhere aliceAndBob "B"
     (by simp [JSMap.NodupKeys, JSMap.keys, aliceAndBob])⟩

/-- C4: `disconnect` is idempotent. For every state and connection `c` the
handler succeeds, and running it again on the resulting state returns that same
state and emits nothing; and on a state in which no room holds `c` it returns
the state unchanged and emits nothing. -/
theorem disconnect_idempotent (st : State) (c : String) :
    (∃ st1 emits, disconnect st c = Except.ok (st1, emits) ∧
      disconnect st1 c = Except.ok (st1, [])) ∧
    ((∀ e ∈ st.rooms, JSMap.has e.2 c = false) → disconnect st c = Except.ok (st, [])) := by
  have hnoop : ∀ s : State, (∀ e ∈ s.rooms, JSMap.has e.2 c = false) →
      disconnect s c = Except.ok (s, []) := by
    intro s hs
    simp [disconnect, disconnectRooms_of_absent c s.rooms hs]
  refine ⟨⟨_, _, disconnect_eq st c, ?_⟩, hnoop st⟩
  apply hnoop
  intro e he
  obtain ⟨e0, _, h0⟩ := List.mem_filterMap.mp he
  cases hr : roomAfterDisconnect c e0.2 with
  | none => simp [hr] at h0
  | some r =>
    simp [hr] at h0
    rw [← h0]
    exact has_false_of_roomAfterDisconnect hr

/-- C4, witness: connection "B" is in no room of the state where Alice is alone
in "math101"; its disconnect changes nothing and emits nothing. -/
theorem disconnect_idempotent_witness :
    (∀ e ∈ aliceAlone.rooms, JSMap.has e.2 "B" = false) ∧
    disconnect aliceAlone "B" = Except.ok (aliceAlone, []) :=
  have h : ∀ e ∈ aliceAlone.rooms, JSMap.has e.2 "B" = false := by
    simp [aliceAlone, JSMap.has]
  ⟨h, (disconnect_idempotent aliceAlone "B").2 h⟩

/-- C5: for a connection `c` with record `p` in room `R` and a boolean `v`,
`toggle-mic` succeeds and leaves `c` with the record `p` in which only
`isMuted` is replaced by `v`; `toggle-video` does the same for `isVideoOn`. In
both cases the record of every other (room, connection) pair, every other room,
the order of the rooms and the subscriptions are unchanged. -/
theorem toggle_changes_only_its_flag (st : State) (c : String) (R : JSVal) (v : Bool)
    (p : Participant) (hp : st.record R c = some p) :
    (∃ st1 emits, toggleMic st c R (JSVal.bool v) = Except.ok (st1, emits) ∧
      st1.record R c = some { p with isMuted := JSVal.bool v } ∧
      (∀ R1 c1, (R1, c1) ≠ (R, c) → st1.record R1 c1 = st.record R1 c1) ∧
      (∀ R1, R1 ≠ R → JSMap.get st1.rooms R1 = JSMap.get st.rooms R1) ∧
      JSMap.keys st1.rooms = JSMap.keys st.rooms ∧ st1.subs = st.subs) ∧
    (∃ st1 emits, toggleVideo st c R (JSVal.bool v) = Except.ok (st1, emits) ∧
      st1.record R c = some { p with isVideoOn := JSVal.bool v } ∧
      (∀ R1 c1, (R1, c1) ≠ (R, c) → st1.record R1 c1 = st.record R1 c1) ∧
      (∀ R1, R1 ≠ R → JSMap.get st1.rooms R1 = JSMap.get st.rooms R1) ∧
      JSMap.keys st1.rooms = JSMap.keys st.rooms ∧ st1.subs = st.subs) := by
  obtain ⟨room, hroom, hrec⟩ := (record_eq_some_iff st R c p).mp hp
  have hkeys : ∀ room1 : Room, JSMap.keys (JSMap.set st.rooms R room1) = JSMap.keys st.rooms := by
    intro room1
    rw [JSMap.keys_set, JSMap.has_true_of_get_eq_some hroom]
    rfl
  constructor
  · refine ⟨_, _, toggleMic_of_member st c R (JSVal.bool v) hroom hrec, ?_, ?_, ?_, hkeys _, rfl⟩
    · simp [State.record, JSMap.get_set_self]
    · intro R1 c1 hne
      exact record_after_update st R c room _ st.subs hroom
        (fun c2 hc2 => JSMap.get_set_ne room _ hc2) R1 c1 hne
    · intro R1 hR1
      exact JSMap.get_set_ne st.rooms _ hR1
  · refine ⟨_, _, toggleVideo_of_member st c R (JSVal.bool v) hroom hrec, ?_, ?_, ?_, hkeys _, rfl⟩
    · simp [State.record, JSMap.get_set_self]
    · intro R1 c1 hne
      exact record_after_update st R c room _ st.subs hroom
        (fun c2 hc2 => JSMap.get_set_ne room _ hc2) R1 c1 hne
    · intro R1 hR1
      exact JSMap.get_set_ne st.rooms _ hR1

/-- C5, witness: Bob, in "math101" with Alice, sends `toggle-mic` with
`isMuted: true`; his record then has `isMuted = true` and `isVideoOn` still true. -/
theorem toggle_changes_only_its_flag_witness :
    aliceAndBob.record (JSVal.str "math101") "B" = some (bob 2000) ∧
    ∃ st1 emits, toggleMic aliceAndBob "B" (JSVal.str "math101") (JSVal.bool true)
        = Except.ok (st1, emits) ∧
      st1.record (JSVal.str "math101") "B"
        = some { bob 2000 with isMuted := JSVal.bool true } ∧
      (∀ R1 c1, (R1, c1) ≠ (JSVal.str "math101", "B") →
        st1.record R1 c1 = aliceAndBob.record R1 c1) ∧
      (∀ R1, R1 ≠ JSVal.str "math101" →
        JSMap.get st1.rooms R1 = JSMap.get aliceAndBob.rooms R1) ∧
      JSMap.keys st1.rooms = JSMap.keys aliceAndBob.rooms ∧ st1.subs = aliceAndBob.subs :=
  ⟨rfl, (toggle_changes_only_its_flag aliceAndBob "B" (JSVal.str "math101") true (bob 2000) rfl).1⟩

/-- C6: when connection `c` has no record in room `R` (the room may not exist),
each of `toggle-mic`, `toggle-video` and `leave-class` succeeds, returns the
state it was given and emits nothing. -/
theorem stale_reference_is_noop (st : State) (c : String) (R v : JSVal)
    (h : st.record R c = none) :
    toggleMic st c R v = Except.ok (st, []) ∧
    toggleVideo st c R v = Except.ok (st, []) ∧
    leaveClass st c R = Except.ok (st, []) :=
  guarded_of_not_member st c R v h

/-- C6, witness: Bob has no record in "math101" where Alice is alone, and no
room "physics" exists; his toggle and leave events change nothing. -/
theorem stale_reference_is_noop_witness :
    (aliceAlone.record (JSVal.str "math101") "B" = none ∧
      toggleMic aliceAlone "B" (JSVal.str "math101") (JSVal.bool true) = Except.ok (aliceAlone, []) ∧
      toggleVideo aliceAlone "B" (JSVal.str "math101") (JSVal.bool true)
        = Except.ok (aliceAlone, []) ∧
      leaveClass aliceAlone "B" (JSVal.str "math101") = Except.ok (aliceAlone, [])) ∧
    (aliceAlone.record (JSVal.str "physics") "A" = none ∧
      leaveClass aliceAlone "A" (JSVal.str "physics") = Except.ok (aliceAlone, [])) :=
  ⟨⟨rfl, stale_reference_is_noop aliceAlone "B" (JSVal.str "math101") (JSVal.bool true) rfl⟩,
   ⟨rfl, (stale_reference_is_noop aliceAlone "A" (JSVal.str "physics") JSVal.null rfl).2.2⟩⟩

/-- C7: joining room `R` twice on the same connection `c` gives exactly the
result of the second join alone: the same state and the same emissions, so the
record of the first join (its fields and its `joinedAt`) is overwritten. In a
well-formed state the room then holds exactly one entry for `c`, and it has as
many entries as after the first join. -/
theorem rejoin_is_last_writer_wins (st : State) (c : String) (R : JSVal) (clk1 clk2 : Clock)
    (n1 r1 p1 n2 r2 p2 : JSVal) (hwf : st.WF) :
    ∃ st1 emits1 st2 emits2,
      joinClass st c clk1 R n1 r1 p1 = Except.ok (st1, emits1) ∧
      joinClass st1 c clk2 R n2 r2 p2 = Except.ok (st2, emits2) ∧
      joinClass st c clk2 R n2 r2 p2 = Except.ok (st2, emits2) ∧
      ∃ room1 room2,
        JSMap.get st1.rooms R = some room1 ∧ JSMap.get st2.rooms R = some room2 ∧
        (JSMap.keys room2).count c = 1 ∧ JSMap.size room2 = JSMap.size room1 := by
  have hnd : JSMap.NodupKeys ((JSMap.get st.rooms R).getD []) := by
    cases hroom : JSMap.get st.rooms R with
    | none => simp [JSMap.NodupKeys, JSMap.keys]
    | some room => exact hwf.2 (R, room) (JSMap.mem_of_get_eq_some hroom)
  refine ⟨_, _, _, _, joinClass_eq st c clk1 R n1 r1 p1, ?_, joinClass_eq st c clk2 R n2 r2 p2,
    _, _, JSMap.get_set_self _ _ _, JSMap.get_set_self _ _ _, ?_, ?_⟩
  · rw [joinClass_eq]
    simp [JSMap.get_set_self, JSMap.set_set, subscribe_subscribe]
  · exact List.count_eq_one_of_mem (JSMap.nodupKeys_set c _ hnd)
      ((JSMap.has_iff_mem_keys _ _).mp (JSMap.has_set_self _ _ _))
  · rw [JSMap.size_set, JSMap.size_set]

/-- C7, witness: Alice, alone in "math101", joins it again under another name. -/
theorem rejoin_is_last_writer_wins_witness :
    aliceAlone.WF ∧
    ∃ st1 emits1 st2 emits2,
      joinClass aliceAlone "A" ⟨3000, "10:02"⟩ (JSVal.str "math101") (JSVal.str "Al")
          (JSVal.str "teacher") (JSVal.str "p1") = Except.ok (st1, emits1) ∧
      joinClass st1 "A" ⟨4000, "10:03"⟩ (JSVal.str "math101") (JSVal.str "Alice B")
          (JSVal.str "student") (JSVal.str "p9") = Except.ok (st2, emits2) ∧
      joinClass aliceAlone "A" ⟨4000, "10:03"⟩ (JSVal.str "math101") (JSVal.str "Alice B")
          (JSVal.str "student") (JSVal.str "p9") = Except.ok (st2, emits2) ∧
      ∃ room1 room2,
        JSMap.get st1.rooms (JSVal.str "math101") = some room1 ∧
        JSMap.get st2.rooms (JSVal.str "math101") = some room2 ∧
        (JSMap.keys room2).count "A" = 1 ∧ JSMap.size room2 = JSMap.size room1 :=
  have hwf : aliceAlone.WF := by
    simp [State.WF, JSMap.NodupKeys, JSMap.keys, aliceAlone]
  ⟨hwf, rejoin_is_last_writer_wins aliceAlone "A" (JSVal.str "math101") ⟨3000, "10:02"⟩
    ⟨4000, "10:03"⟩ (JSVal.str "Al") (JSVal.str "teacher") (JSVal.str "p1")
    (JSVal.str "Alice B") (JSVal.str "student") (JSVal.str "p9") hwf⟩

/-- C9: for every state, room id `R`, connection `c`, clock reading and field
values, `join-class` succeeds; afterwards the record stored for `c` in `R` is
exactly the record with id `c`, the given name, role and peerId, `isMuted`
false, `isVideoOn` true and `joinedAt` the clock reading; and the emissions
are one `room-participants` unicast to `c` followed by exactly one
`user-joined`, addressed to room `R` without `c` and carrying that record. -/
theorem join_stores_record_and_announces_it (st : State) (c : String) (clk : Clock)
    (R name role peerId : JSVal) :
    ∃ st1 participants,
      joinClass st c clk R name role peerId
        = Except.ok (st1,
            [ { target := Target.socket c, event := OutEvent.roomParticipants participants },
              { target := Target.roomExcept R c,
                event := OutEvent.userJoined
                  { id := c, name := name, role := role, peerId := peerId,
                    isMuted := JSVal.bool false, isVideoOn := JSVal.bool true,
                    joinedAt := clk.now } } ]) ∧
      st1.record R c
        = some { id := c, name := name, role := role, peerId := peerId,
                 isMuted := JSVal.bool false, isVideoOn := JSVal.bool true,
                 joinedAt := clk.now } ∧
      JSMap.has st1.rooms R = true := by
  refine ⟨_, _, joinClass_eq st c clk R name role peerId, ?_, JSMap.has_set_self _ _ _⟩
  simp [State.record, JSMap.get_set_self]

/-- C10: when connection `c` has no record in room `R`, the `room-participants`
list unicast to `c` by `join-class` is the list of the records that were in `R`
before, in insertion order, followed by the record of `c`; when `R` did not
exist it is the one-element list holding the record of `c`. -/
theorem room_participants_is_snapshot_after_insert (st : State) (c : String) (clk : Clock)
    (R name role peerId : JSVal) (h : st.record R c = none) :
    ∃ st1 participants,
      joinClass st c clk R name role peerId
        = Except.ok (st1,
            [ { target := Target.socket c, event := OutEvent.roomParticipants participants },
              { target := Target.roomExcept R c,
                event := OutEvent.userJoined
                  { id := c, name := name, role := role, peerId := peerId,
                    isMuted := JSVal.bool false, isVideoOn := JSVal.bool true,
                    joinedAt := clk.now } } ]) ∧
      participants
        = JSMap.values ((JSMap.get st.rooms R).getD [])
            ++ [ { id := c, name := name, role := role, peerId := peerId,
                   isMuted := JSVal.bool false, isVideoOn := JSVal.bool true,
                   joinedAt := clk.now } ] ∧
      (JSMap.get st.rooms R = none →
        participants
          = [ { id := c, name := name, role := role, peerId := peerId,
                isMuted := JSVal.bool false, isVideoOn := JSVal.bool true,
                joinedAt := clk.now } ]) := by
  have hhas : JSMap.has ((JSMap.get st.rooms R).getD []) c = false := by
    unfold State.record at h
    cases hroom : JSMap.get st.rooms R with
    | none => simp [JSMap.has]
    | some room =>
      rw [hroom] at h
      exact JSMap.has_false_of_get_eq_none h
  refine ⟨_, _, joinClass_eq st c clk R name role peerId,
    JSMap.values_set_of_has_false _ c _ hhas, ?_⟩
  intro hnone
  simp [hnone, JSMap.set, JSMap.values]

/-- C10, witness: Alice joins the empty registry and receives the list holding
only her record; Bob then joins "math101" and receives Alice followed by Bob. -/
theorem room_participants_is_snapshot_after_insert_witness :
    (State.empty.record (JSVal.str "math101") "A" = none ∧
      ∃ st1 participants,
        joinClass State.empty "A" ⟨1000, "10:00"⟩ (JSVal.str "math101") (JSVal.str "Alice")
            (JSVal.str "teacher") (JSVal.str "p1")
          = Except.ok (st1,
              [ { target := Target.socket "A", event := OutEvent.roomParticipants participants },
                { target := Target.roomExcept (JSVal.str "math101") "A",
                  event := OutEvent.userJoined (alice 1000) } ]) ∧
        participants = JSMap.values ((JSMap.get State.empty.rooms (JSVal.str "math101")).getD [])
            ++ [alice 1000] ∧
        (JSMap.get State.empty.rooms (JSVal.str "math101") = none →
          participants = [alice 1000])) ∧
    (aliceAlone.record (JSVal.str "math101") "B" = none ∧
      ∃ st1 participants,
        joinClass aliceAlone "B" ⟨2000, "10:01"⟩ (JSVal.str "math101") (JSVal.str "Bob")
            (JSVal.str "student") (JSVal.str "p2")
          = Except.ok (st1,
              [ { target := Target.socket "B", event := OutEvent.roomParticipants participants },
                { target := Target.roomExcept (JSVal.str "math101") "B",
                  event := OutEvent.userJoined (bob 2000) } ]) ∧
        participants = JSMap.values ((JSMap.get aliceAlone.rooms (JSVal.str "math101")).getD [])
            ++ [bob 2000] ∧
        (JSMap.get aliceAlone.rooms (JSVal.str "math101") = none →
          participants = [bob 2000])) :=
  ⟨⟨rfl, room_participants_is_snapshot_after_insert State.empty "A" ⟨1000, "10:00"⟩
      (JSVal.str "math101") (JSVal.str "Alice") (JSVal.str "teacher") (JSVal.str "p1") rfl⟩,
   ⟨rfl, room_participants_is_snapshot_after_insert aliceAlone "B" ⟨2000, "10:01"⟩
      (JSVal.str "math101") (JSVal.str "Bob") (JSVal.str "student") (JSVal.str "p2") rfl⟩⟩

/-- C11: a `student-send-count` event whose count is not a number, or whose
peerId is `null` or missing (`undefined`), succeeds, emits nothing and returns
the state it was given, whatever the room id; the same holds for the handler
applied to the object payload carrying these three fields. -/
theorem relay_count_drops_malformed_sample (st : State) (c : String) (R count peerId : JSVal)
    (h : count.isNumber = false ∨ peerId.isNullish = true) :
    studentSendCount st c R count peerId = Except.ok (st, []) ∧
    onStudentSendCount st c (Payload.object [("classId", R), ("count", count), ("peerId", peerId)])
      = Except.ok (st, []) := by
  have hcore : studentSendCount st c R count peerId = Except.ok (st, []) := by
    unfold studentSendCount
    rcases h with h | h
    · simp [h]
    · simp [h]
  refine ⟨hcore, ?_⟩
  simpa [onStudentSendCount, Payload.destructure, lookupField] using hcore

/-- C11, witness: a count sent as the string "three" is dropped, and so is a
sample without peerId. -/
theorem relay_count_drops_malformed_sample_witness :
    ((JSVal.str "three").isNumber = false ∨ (JSVal.str "p2").isNullish = true) ∧
    (studentSendCount aliceAndBob "B" (JSVal.str "math101") (JSVal.str "three") (JSVal.str "p2")
        = Except.ok (aliceAndBob, []) ∧
      onStudentSendCount aliceAndBob "B"
          (Payload.object [("classId", JSVal.str "math101"), ("count", JSVal.str "three"),
            ("peerId", JSVal.str "p2")])
        = Except.ok (aliceAndBob, [])) :=
  ⟨Or.inl rfl,
   relay_count_drops_malformed_sample aliceAndBob "B" (JSVal.str "math101") (JSVal.str "three")
     (JSVal.str "p2") (Or.inl rfl)⟩

/-- C12, counterexample: with the empty string as room id, a numeric count and
a present peerId, `student-send-count` emits nothing. -/
theorem relay_count_drops_empty_room_id :
    studentSendCount aliceAndBob "B" (JSVal.str "") (JSVal.num 3) (JSVal.str "p2")
      = Except.ok (aliceAndBob, []) :=
  rfl

/-- C12, amended: for every non-empty string `R` (whether or not such a room
exists), every numeric count and every peerId other than `null` and
`undefined`, `student-send-count` from connection `c` succeeds, leaves the
state unchanged and emits exactly one `student-count-update`, addressed to
room `R` without `c`, carrying the peerId and the count as received. -/
theorem relay_count_forwards_valid_sample (st : State) (c : String) (R : String) (n : Int)
    (peerId : JSVal) (hR : R ≠ "") (hp : peerId.isNullish = false) :
    studentSendCount st c (JSVal.str R) (JSVal.num n) peerId
      = Except.ok (st,
          [ { target := Target.roomExcept (JSVal.str R) c,
              event := OutEvent.studentCountUpdate peerId (JSVal.num n) } ]) := by
  simp [studentSendCount, JSVal.truthy, JSVal.isNumber, hR, hp]

/-- C12, witness: Bob reports the count 3 to the room "math101". -/
theorem relay_count_forwards_valid_sample_witness :
    "math101" ≠ "" ∧ (JSVal.str "p2").isNullish = false ∧
    studentSendCount aliceAndBob "B" (JSVal.str "math101") (JSVal.num 3) (JSVal.str "p2")
      = Except.ok (aliceAndBob,
          [ { target := Target.roomExcept (JSVal.str "math101") "B",
              event := OutEvent.studentCountUpdate (JSVal.str "p2") (JSVal.num 3) } ]) :=
  ⟨by decide, rfl,
   relay_count_forwards_valid_sample aliceAndBob "B" "math101" 3 (JSVal.str "p2") (by decide) rfl⟩

theorem onJoinClass_object (st : State) (sid : String) (clk : Clock)
    (fields : List (String × JSVal)) :
    onJoinClass st sid clk (Payload.object fields)
      = joinClass st sid clk (lookupField "classId" fields) (lookupField "userName" fields)
          (lookupField "userRole" fields) (lookupField "peerId" fields) :=
  rfl

theorem onToggleMic_object (st : State) (sid : String) (fields : List (String × JSVal)) :
    onToggleMic st sid (Payload.object fields)
      = toggleMic st sid (lookupField "classId" fields) (lookupField "isMuted" fields) :=
  rfl

theorem onToggleVideo_object (st : State) (sid : String) (fields : List (String × JSVal)) :
    onToggleVideo st sid (Payload.object fields)
      = toggleVideo st sid (lookupField "classId" fields) (lookupField "isVideoOn" fields) :=
  rfl

/-- C13, counterexample: Bob sends `join-class` without `userName` to the
state where Alice is alone in "math101"; the registry gains a record for Bob
whose name is `undefined`, and both join events are emitted. Alice then sends
`toggle-mic` with the string "yes"; her record stores it and
`participant-updated` is emitted. -/
theorem malformed_join_and_toggle_take_effect :
    onJoinClass aliceAlone "B" ⟨2000, "10:01"⟩
        (Payload.object [("classId", JSVal.str "math101"), ("userRole", JSVal.str "student"),
          ("peerId", JSVal.str "p2")])
      = Except.ok
          ({ rooms := [(JSVal.str "math101",
                [("A", alice 1000), ("B", { bob 2000 with name := JSVal.undefined })])],
             subs := [("A", JSVal.str "math101"), ("B", JSVal.str "math101")] },
           [ { target := Target.socket "B",
               event := OutEvent.roomParticipants
                 [alice 1000, { bob 2000 with name := JSVal.undefined }] },
             { target := Target.roomExcept (JSVal.str "math101") "B",
               event := OutEvent.userJoined { bob 2000 with name := JSVal.undefined } } ]) ∧
    onToggleMic aliceAlone "A"
        (Payload.object [("classId", JSVal.str "math101"), ("isMuted", JSVal.str "yes")])
      = Except.ok
          ({ rooms := [(JSVal.str "math101",
                [("A", { alice 1000 with isMuted := JSVal.str "yes" })])],
             subs := [("A", JSVal.str "math101")] },
           [ { target := Target.roomExcept (JSVal.str "math101") "A",
               event := OutEvent.participantUpdatedMic "A" (JSVal.str "yes") } ]) :=
  ⟨rfl, rfl⟩

/-- C13, amended: `join-class` and the toggles do not check their fields. For
every state and every object payload, `join-class` succeeds, stores for the
connection the record built from the fields as read (a missing field reads
`undefined`) in the room keyed by the `classId` as read, and emits
`room-participants` and `user-joined`; and when the connection has a record in
that room, `toggle-mic` and `toggle-video` store the `isMuted` and `isVideoOn`
value as read, boolean or not, and emit `participant-updated`. -/
theorem join_and_toggles_process_unchecked_fields (st : State) (c : String) (clk : Clock)
    (fields : List (String × JSVal)) :
    (∃ st1 participants,
      onJoinClass st c clk (Payload.object fields)
        = Except.ok (st1,
            [ { target := Target.socket c, event := OutEvent.roomParticipants participants },
              { target := Target.roomExcept (lookupField "classId" fields) c,
                event := OutEvent.userJoined
                  { id := c, name := lookupField "userName" fields,
                    role := lookupField "userRole" fields, peerId := lookupField "peerId" fields,
                    isMuted := JSVal.bool false, isVideoOn := JSVal.bool true,
                    joinedAt := clk.now } } ]) ∧
      st1.record (lookupField "classId" fields) c
        = some { id := c, name := lookupField "userName" fields,
                 role := lookupField "userRole" fields, peerId := lookupField "peerId" fields,
                 isMuted := JSVal.bool false, isVideoOn := JSVal.bool true,
                 joinedAt := clk.now }) ∧
    (∀ p, st.record (lookupField "classId" fields) c = some p →
      (∃ st1,
        onToggleMic st c (Payload.object fields)
          = Except.ok (st1,
              [ { target := Target.roomExcept (lookupField "classId" fields) c,
                  event := OutEvent.participantUpdatedMic c (lookupField "isMuted" fields) } ]) ∧
        st1.record (lookupField "classId" fields) c
          = some { p with isMuted := lookupField "isMuted" fields }) ∧
      (∃ st1,
        onToggleVideo st c (Payload.object fields)
          = Except.ok (st1,
              [ { target := Target.roomExcept (lookupField "classId" fields) c,
                  event := OutEvent.participantUpdatedVideo c
                    (lookupField "isVideoOn" fields) } ]) ∧
        st1.record (lookupField "classId" fields) c
          = some { p with isVideoOn := lookupField "isVideoOn" fields })) := by
  rw [onJoinClass_object, onToggleMic_object, onToggleVideo_object]
  constructor
  · refine ⟨_, _, joinClass_eq st c clk _ _ _ _, ?_⟩
    simp [State.record, JSMap.get_set_self]
  · intro p hp
    obtain ⟨room, hroom, hrec⟩ := (record_eq_some_iff st _ c p).mp hp
    constructor
    · refine ⟨_, toggleMic_of_member st c _ _ hroom hrec, ?_⟩
      simp [State.record, JSMap.get_set_self]
    · refine ⟨_, toggleVideo_of_member st c _ _ hroom hrec, ?_⟩
      simp [State.record, JSMap.get_set_self]

/-- C13, witness: Alice, alone in "math101", sends toggles whose flags are missing. -/
theorem join_and_toggles_process_unchecked_fields_witness :
    aliceAlone.record (lookupField "classId" [("classId", JSVal.str "math101")]) "A"
      = some (alice 1000) ∧
    (∃ st1,
      onToggleMic aliceAlone "A" (Payload.object [("classId", JSVal.str "math101")])
        = Except.ok (st1,
            [ { target := Target.roomExcept (lookupField "classId"
                  [("classId", JSVal.str "math101")]) "A",
                event := OutEvent.participantUpdatedMic "A"
                  (lookupField "isMuted" [("classId", JSVal.str "math101")]) } ]) ∧
      st1.record (lookupField "classId" [("classId", JSVal.str "math101")]) "A"
        = some { alice 1000 with
                 isMuted := lookupField "isMuted" [("classId", JSVal.str "math101")] }) :=
  ⟨rfl,
   ((join_and_toggles_process_unchecked_fields aliceAlone "A" ⟨2000, "10:01"⟩
      [("classId", JSVal.str "math101")]).2 (alice 1000) rfl).1⟩

theorem JSMap.get_of_mem_of_nodupKeys {κ ν : Type} [DecidableEq κ] {m : JSMap κ ν} {key : κ}
    {v : ν} (hnd : JSMap.NodupKeys m) (hmem : (key, v) ∈ m) : JSMap.get m key = some v := by
  induction m with
  | nil => simp at hmem
  | cons e rest ih =>
    obtain ⟨k, u⟩ := e
    have hnd1 : k ∉ JSMap.keys rest ∧ JSMap.NodupKeys rest := by
      simpa [JSMap.NodupKeys, JSMap.keys] using hnd
    rcases List.mem_cons.mp hmem with h | h
    · have hk : key = k := (Prod.mk.inj h).1
      have hv : v = u := (Prod.mk.inj h).2
      simp [JSMap.get, hk, hv]
    · have hne : k ≠ key := by
        intro hk
        apply hnd1.1
        rw [hk]
        exact List.mem_map_of_mem Prod.fst h
      simp [JSMap.get, hne, ih hnd1.2 h]

theorem userLeftEmits_eq (sid : String) (classId : JSVal) (room : Room) :
    userLeftEmits sid classId room
      = (JSMap.get room sid).toList.map
          (fun p => { target := Target.roomExcept classId sid,
                      event := OutEvent.userLeft sid p.name p.peerId }) := by
  unfold userLeftEmits
  cases JSMap.get room sid with
  | none => rfl
  | some p => rfl

theorem target_of_mem_userLeftEmits {sid : String} {classId : JSVal} {room : Room} {em : Emit}
    (h : em ∈ userLeftEmits sid classId room) : em.target = Target.roomExcept classId sid := by
  rw [userLeftEmits_eq] at h
  obtain ⟨p, _, hp⟩ := List.mem_map.mp h
  rw [← hp]

theorem target_of_mem_disconnect_emits {sid : String} {rs : Registry} {em : Emit}
    (h : em ∈ rs.flatMap (fun e => userLeftEmits sid e.1 e.2)) :
    ∃ k ∈ JSMap.keys rs, em.target = Target.roomExcept k sid := by
  obtain ⟨e, he, hem⟩ := List.mem_flatMap.mp h
  exact ⟨e.1, List.mem_map_of_mem Prod.fst he, target_of_mem_userLeftEmits hem⟩

/-- The emissions of the `disconnect` loop that are addressed to one room. -/
theorem disconnect_emits_for_room (sid : String) (rs : Registry) (hnd : JSMap.NodupKeys rs)
    (classId : JSVal) :
    (rs.flatMap (fun e => userLeftEmits sid e.1 e.2)).filter
        (fun em => decide (em.target = Target.roomExcept classId sid))
      = ((JSMap.get rs classId).bind (fun room => JSMap.get room sid)).toList.map
          (fun p => { target := Target.roomExcept classId sid,
                      event := OutEvent.userLeft sid p.name p.peerId }) := by
  induction rs with
  | nil => simp [JSMap.get]
  | cons e rest ih =>
    obtain ⟨k, room⟩ := e
    have hnd1 : k ∉ JSMap.keys rest ∧ JSMap.NodupKeys rest := by
      simpa [JSMap.NodupKeys, JSMap.keys] using hnd
    rw [List.flatMap_cons, List.filter_append]
    by_cases hk : k = classId
    · subst hk
      have hfirst : (userLeftEmits sid k room).filter
          (fun em => decide (em.target = Target.roomExcept k sid)) = userLeftEmits sid k room := by
        apply List.filter_eq_self.mpr
        intro em hem
        simp [target_of_mem_userLeftEmits hem]
      have hrest : (rest.flatMap (fun e => userLeftEmits sid e.1 e.2)).filter
          (fun em => decide (em.target = Target.roomExcept k sid)) = [] := by
        apply List.filter_eq_nil_iff.mpr
        intro em hem
        obtain ⟨k1, hk1, ht⟩ := target_of_mem_disconnect_emits hem
        have hne : k1 ≠ k := fun h => hnd1.1 (h ▸ hk1)
        simp [ht, hne]
      rw [hfirst, hrest, List.append_nil, userLeftEmits_eq]
      simp [JSMap.get]
    · have hfirst : (userLeftEmits sid k room).filter
          (fun em => decide (em.target = Target.roomExcept classId sid)) = [] := by
        apply List.filter_eq_nil_iff.mpr
        intro em hem
        simp [target_of_mem_userLeftEmits hem, hk]
      rw [hfirst, List.nil_append, ih hnd1.2]
      simp [JSMap.get, hk]

/-- C14: for every registry with distinct room keys and every connection `c`,
`disconnect` succeeds, every emission is addressed to some room without `c`,
and for each room `R` the emissions addressed to `R` are: exactly one
`user-left` carrying `c` and the name and peerId of the record `c` had in `R`,
when there was one, and none otherwise. `leave-class` by a member of `R` emits
exactly one `user-left`, addressed to `R` without `c`, carrying `c` and the
name and peerId of the record it removes. -/
theorem departure_notifications_carry_removed_record (st : State) (c : String)
    (hnd : JSMap.NodupKeys st.rooms) :
    (∃ st1 emits, disconnect st c = Except.ok (st1, emits) ∧
      (∀ em ∈ emits, ∃ R, em.target = Target.roomExcept R c) ∧
      (∀ R, emits.filter (fun em => decide (em.target = Target.roomExcept R c))
          = (st.record R c).toList.map
              (fun p => { target := Target.roomExcept R c,
                          event := OutEvent.userLeft c p.name p.peerId }))) ∧
    (∀ R p, st.record R c = some p →
      ∃ st1, leaveClass st c R
        = Except.ok (st1,
            [ { target := Target.roomExcept R c,
                event := OutEvent.userLeft c p.name p.peerId } ]) ∧
        st1.record R c = none) := by
  constructor
  · refine ⟨_, _, disconnect_eq st c, ?_, ?_⟩
    · intro em hem
      obtain ⟨k, _, hk⟩ := target_of_mem_disconnect_emits hem
      exact ⟨k, hk⟩
    · intro R
      exact disconnect_emits_for_room c st.rooms hnd R
  · intro R p hp
    obtain ⟨room, hroom, hrec⟩ := (record_eq_some_iff st R c p).mp hp
    refine ⟨_, leaveClass_of_member st c R hroom hrec, ?_⟩
    simp [State.record, JSMap.get_set_self,
      JSMap.get_eq_none_of_has_false (JSMap.has_delete_self room c)]

/-- C14, witness: Alice is in "math101" (with Bob) and in "physics"; her
disconnect emits one `user-left` per room, and her `leave-class` for "math101"
emits one `user-left` with her name and peerId. -/
theorem departure_notifications_carry_removed_record_witness :
    JSMap.NodupKeys aliceInTwoRooms.rooms ∧
    (∃ st1 emits, disconnect aliceInTwoRooms "A" = Except.ok (st1, emits) ∧
      (∀ em ∈ emits, ∃ R, em.target = Target.roomExcept R "A") ∧
      (∀ R, emits.filter (fun em => decide (em.target = Target.roomExcept R "A"))
          = (aliceInTwoRooms.record R "A").toList.map
              (fun p => { target := Target.roomExcept R "A",
                          event := OutEvent.userLeft "A" p.name p.peerId }))) ∧
    aliceInTwoRooms.record (JSVal.str "math101") "A" = some (alice 1000) ∧
    (∃ st1, leaveClass aliceInTwoRooms "A" (JSVal.str "math101")
        = Except.ok (st1,
            [ { target := Target.roomExcept (JSVal.str "math101") "A",
                event := OutEvent.userLeft "A" (alice 1000).name (alice 1000).peerId } ]) ∧
        st1.record (JSVal.str "math101") "A" = none) :=
  have hnd : JSMap.NodupKeys aliceInTwoRooms.rooms := by
    simp [JSMap.NodupKeys, JSMap.keys, aliceInTwoRooms]
  ⟨hnd, (departure_notifications_carry_removed_record aliceInTwoRooms "A" hnd).1, rfl,
   (departure_notifications_carry_removed_record aliceInTwoRooms "A" hnd).2
     (JSVal.str "math101") (alice 1000) rfl⟩

/-- C15: for every state, room id, text and sender, `send-message` succeeds,
returns the state it was given, and emits exactly one `new-message`,
addressed to the whole room (so to every subscriber of the room, the sender
included when subscribed), whose payload carries the sender and the text as
received, the clock reading as id and the formatted time. The same holds for
the handler applied to the object payload carrying the three fields. -/
theorem send_message_is_stateless_relay (st : State) (clk : Clock) (R text sender : JSVal) :
    sendMessage st clk R text sender
      = Except.ok (st,
          [ { target := Target.room R,
              event := OutEvent.newMessage
                { id := clk.now, sender := sender, text := text, time := clk.localeTime } } ]) ∧
    onSendMessage st clk
        (Payload.object [("classId", R), ("message", text), ("sender", sender)])
      = Except.ok (st,
          [ { target := Target.room R,
              event := OutEvent.newMessage
                { id := clk.now, sender := sender, text := text, time := clk.localeTime } } ]) ∧
    (∀ sid, sid ∈ recipients st.subs (Target.room R) ↔ (sid, R) ∈ st.subs) := by
  refine ⟨rfl, ?_, ?_⟩
  · simp [onSendMessage, Payload.destructure, lookupField, sendMessage]
  · intro sid
    simp [recipients]

/-- C16: when connection `c` has a record in room `R`, `leave-class` succeeds
and removes that record; the record of every other (room, connection) pair,
so those of `c` in other rooms and those of all other participants, every
other room, and the order of the rooms are unchanged. -/
theorem leave_targets_one_room (st : State) (c : String) (R : JSVal) (p : Participant)
    (hp : st.record R c = some p) :
    ∃ st1 emits, leaveClass st c R = Except.ok (st1, emits) ∧
      st1.record R c = none ∧
      (∀ R1 c1, (R1, c1) ≠ (R, c) → st1.record R1 c1 = st.record R1 c1) ∧
      (∀ R1, R1 ≠ R → JSMap.get st1.rooms R1 = JSMap.get st.rooms R1) ∧
      JSMap.keys st1.rooms = JSMap.keys st.rooms := by
  obtain ⟨room, hroom, hrec⟩ := (record_eq_some_iff st R c p).mp hp
  refine ⟨_, _, leaveClass_of_member st c R hroom hrec, ?_, ?_, ?_, ?_⟩
  · simp [State.record, JSMap.get_set_self,
      JSMap.get_eq_none_of_has_false (JSMap.has_delete_self room c)]
  · intro R1 c1 hne
    exact record_after_update st R c room _ _ hroom
      (fun c2 hc2 => JSMap.get_delete_ne room hc2) R1 c1 hne
  · intro R1 hR1
    exact JSMap.get_set_ne st.rooms _ hR1
  · rw [JSMap.keys_set, JSMap.has_true_of_get_eq_some hroom]
    rfl

/-- C16, witness: Alice is in "math101" and "physics" and leaves "math101";
her record in "physics" and the record of Bob in "math101" stay. -/
theorem leave_targets_one_room_witness :
    aliceInTwoRooms.record (JSVal.str "math101") "A" = some (alice 1000) ∧
    ∃ st1 emits, leaveClass aliceInTwoRooms "A" (JSVal.str "math101") = Except.ok (st1, emits) ∧
      st1.record (JSVal.str "math101") "A" = none ∧
      (∀ R1 c1, (R1, c1) ≠ (JSVal.str "math101", "A") →
        st1.record R1 c1 = aliceInTwoRooms.record R1 c1) ∧
      (∀ R1, R1 ≠ JSVal.str "math101" →
        JSMap.get st1.rooms R1 = JSMap.get aliceInTwoRooms.rooms R1) ∧
      JSMap.keys st1.rooms = JSMap.keys aliceInTwoRooms.rooms :=
  ⟨rfl, leave_targets_one_room aliceInTwoRooms "A" (JSVal.str "math101") (alice 1000) rfl⟩

/-- C17, counterexample: two `send-message` events handled one after the other
at the same clock reading 1000 are stamped with the same id 1000. -/
theorem same_millisecond_messages_share_id :
    run State.empty
      [ ("A", ⟨1000, "10:00"⟩, InEvent.sendMessage (messagePayload "math101" "hi" "Alice")),
        ("B", ⟨1000, "10:00"⟩, InEvent.sendMessage (messagePayload "math101" "yo" "Bob")) ]
      = Except.ok (State.empty,
          [ { target := Target.room (JSVal.str "math101"),
              event := OutEvent.newMessage
                { id := 1000, sender := JSVal.str "Alice", text := JSVal.str "hi",
                  time := "10:00" } },
            { target := Target.room (JSVal.str "math101"),
              event := OutEvent.newMessage
                { id := 1000, sender := JSVal.str "Bob", text := JSVal.str "yo",
                  time := "10:00" } } ]) :=
  rfl

/-- C17, amended: the id stamped on a chat message is the clock reading at
which it is handled; for two `send-message` events handled one after the other
at clock readings `t1 < t2`, the id of the second message is greater than, and
different from, the id of the first. -/
theorem later_message_has_greater_id (st : State) (clk1 clk2 : Clock)
    (R1 text1 sender1 R2 text2 sender2 : JSVal) (hlt : clk1.now < clk2.now) :
    ∃ st1 m1 st2 m2,
      sendMessage st clk1 R1 text1 sender1
        = Except.ok (st1, [ { target := Target.room R1, event := OutEvent.newMessage m1 } ]) ∧
      sendMessage st1 clk2 R2 text2 sender2
        = Except.ok (st2, [ { target := Target.room R2, event := OutEvent.newMessage m2 } ]) ∧
      m1.id = clk1.now ∧ m2.id = clk2.now ∧ m1.id < m2.id ∧ m2.id ≠ m1.id :=
  ⟨_, _, _, _, rfl, rfl, rfl, rfl, hlt, Nat.ne_of_gt hlt⟩

/-- C17, witness: messages handled at the clock readings 1000 and 1001. -/
theorem later_message_has_greater_id_witness :
    (1000 : Nat) < 1001 ∧
    ∃ st1 m1 st2 m2,
      sendMessage State.empty ⟨1000, "10:00"⟩ (JSVal.str "math101") (JSVal.str "hi")
          (JSVal.str "Alice")
        = Except.ok (st1,
            [ { target := Target.room (JSVal.str "math101"),
                event := OutEvent.newMessage m1 } ]) ∧
      sendMessage st1 ⟨1001, "10:00"⟩ (JSVal.str "math101") (JSVal.str "yo") (JSVal.str "Bob")
        = Except.ok (st2,
            [ { target := Target.room (JSVal.str "math101"),
                event := OutEvent.newMessage m2 } ]) ∧
      m1.id = 1000 ∧ m2.id = 1001 ∧ m1.id < m2.id ∧ m2.id ≠ m1.id :=
  ⟨by decide,
   later_message_has_greater_id State.empty ⟨1000, "10:00"⟩ ⟨1001, "10:00"⟩ (JSVal.str "math101")
     (JSVal.str "hi") (JSVal.str "Alice") (JSVal.str "math101") (JSVal.str "yo")
     (JSVal.str "Bob") (by decide)⟩

/-! ## Invariants of reachable states -/

theorem JSMap.mem_set {κ ν : Type} [DecidableEq κ] {m : JSMap κ ν} {key : κ} {val : ν}
    {e : κ × ν} (h : e ∈ JSMap.set m key val) : e = (key, val) ∨ e ∈ m := by
  induction m with
  | nil =>
    left
    simpa [JSMap.set] using h
  | cons e0 rest ih =>
    obtain ⟨k, u⟩ := e0
    by_cases hk : k = key
    · simp only [JSMap.set, hk, if_true] at h
      rcases List.mem_cons.mp h with h1 | h1
      · exact Or.inl h1
      · exact Or.inr (List.mem_cons_of_mem _ h1)
    · simp only [JSMap.set, hk, if_false] at h
      rcases List.mem_cons.mp h with h1 | h1
      · right
        rw [h1]
        exact List.mem_cons_self _ _
      · rcases ih h1 with h2 | h2
        · exact Or.inl h2
        · exact Or.inr (List.mem_cons_of_mem _ h2)

theorem JSMap.mem_of_mem_delete {κ ν : Type} [DecidableEq κ] {m : JSMap κ ν} {key : κ}
    {e : κ × ν} (h : e ∈ JSMap.delete m key) : e ∈ m :=
  List.mem_of_mem_filter h

theorem mem_of_roomAfterDisconnect {sid : String} {room r : Room}
    (h : roomAfterDisconnect sid room = some r) : ∀ q ∈ r, q ∈ room := by
  unfold roomAfterDisconnect at h
  by_cases hh : JSMap.has room sid = true
  · by_cases hs : JSMap.size (JSMap.delete room sid) = 0
    · simp [hh, hs] at h
    · simp [hh, hs] at h
      intro q hq
      rw [← h] at hq
      exact JSMap.mem_of_mem_delete hq
  · have h1 : JSMap.has room sid = false := by simpa using hh
    simp [h1] at h
    intro q hq
    rw [← h] at hq
    exact hq

/-- Replacing one room by a room whose entries match keeps the key/id invariant. -/
theorem keysMatchIds_set_room {st : State} (classId : JSVal) (room1 : Room)
    (subs1 : List (String × JSVal)) (h : st.KeysMatchIds) (h1 : ∀ q ∈ room1, q.2.id = q.1) :
    State.KeysMatchIds { rooms := JSMap.set st.rooms classId room1, subs := subs1 } := by
  intro e he
  rcases JSMap.mem_set he with h2 | h2
  · rw [h2]
    exact h1
  · exact h e h2

theorem joinClass_keysMatchIds {st st1 : State} {sid : String} {clk : Clock}
    {classId userName userRole peerId : JSVal} {emits : List Emit}
    (hr : joinClass st sid clk classId userName userRole peerId = Except.ok (st1, emits))
    (h : st.KeysMatchIds) : st1.KeysMatchIds := by
  rw [joinClass_eq] at hr
  have hst : st1 = _ := (Prod.mk.inj (Except.ok.inj hr)).1.symm
  rw [hst]
  apply keysMatchIds_set_room _ _ _ h
  intro q hq
  rcases JSMap.mem_set hq with h2 | h2
  · rw [h2]
  · cases hroom : JSMap.get st.rooms classId with
    | none => simp [hroom] at h2
    | some room =>
      simp only [hroom, Option.getD_some] at h2
      exact h (classId, room) (JSMap.mem_of_get_eq_some hroom) q h2

theorem toggleMic_keysMatchIds {st st1 : State} {sid : String} {classId v : JSVal}
    {emits : List Emit} (hr : toggleMic st sid classId v = Except.ok (st1, emits))
    (h : st.KeysMatchIds) : st1.KeysMatchIds := by
  cases hrec : st.record classId sid with
  | none =>
    rw [(guarded_of_not_member st sid classId v hrec).1] at hr
    rw [← (Prod.mk.inj (Except.ok.inj hr)).1]
    exact h
  | some p =>
    obtain ⟨room, hroom, hp⟩ := (record_eq_some_iff st classId sid p).mp hrec
    rw [toggleMic_of_member st sid classId v hroom hp] at hr
    rw [← (Prod.mk.inj (Except.ok.inj hr)).1]
    apply keysMatchIds_set_room _ _ _ h
    intro q hq
    have hroomOk := h (classId, room) (JSMap.mem_of_get_eq_some hroom)
    rcases JSMap.mem_set hq with h2 | h2
    · rw [h2]
      exact hroomOk (sid, p) (JSMap.mem_of_get_eq_some hp)
    · exact hroomOk q h2

theorem toggleVideo_keysMatchIds {st st1 : State} {sid : String} {classId v : JSVal}
    {emits : List Emit} (hr : toggleVideo st sid classId v = Except.ok (st1, emits))
    (h : st.KeysMatchIds) : st1.KeysMatchIds := by
  cases hrec : st.record classId sid with
  | none =>
    rw [(guarded_of_not_member st sid classId v hrec).2.1] at hr
    rw [← (Prod.mk.inj (Except.ok.inj hr)).1]
    exact h
  | some p =>
    obtain ⟨room, hroom, hp⟩ := (record_eq_some_iff st classId sid p).mp hrec
    rw [toggleVideo_of_member st sid classId v hroom hp] at hr
    rw [← (Prod.mk.inj (Except.ok.inj hr)).1]
    apply keysMatchIds_set_room _ _ _ h
    intro q hq
    have hroomOk := h (classId, room) (JSMap.mem_of_get_eq_some hroom)
    rcases JSMap.mem_set hq with h2 | h2
    · rw [h2]
      exact hroomOk (sid, p) (JSMap.mem_of_get_eq_some hp)
    · exact hroomOk q h2

theorem leaveClass_keysMatchIds {st st1 : State} {sid : String} {classId : JSVal}
    {emits : List Emit} (hr : leaveClass st sid classId = Except.ok (st1, emits))
    (h : st.KeysMatchIds) : st1.KeysMatchIds := by
  cases hrec : st.record classId sid with
  | none =>
    rw [(guarded_of_not_member st sid classId JSVal.null hrec).2.2] at hr
    rw [← (Prod.mk.inj (Except.ok.inj hr)).1]
    exact h
  | some p =>
    obtain ⟨room, hroom, hp⟩ := (record_eq_some_iff st classId sid p).mp hrec
    rw [leaveClass_of_member st sid classId hroom hp] at hr
    rw [← (Prod.mk.inj (Except.ok.inj hr)).1]
    apply keysMatchIds_set_room _ _ _ h
    intro q hq
    exact h (classId, room) (JSMap.mem_of_get_eq_some hroom) q (JSMap.mem_of_mem_delete hq)

theorem disconnect_keysMatchIds {st st1 : State} {sid : String} {emits : List Emit}
    (hr : disconnect st sid = Except.ok (st1, emits)) (h : st.KeysMatchIds) :
    st1.KeysMatchIds := by
  rw [disconnect_eq] at hr
  rw [← (Prod.mk.inj (Except.ok.inj hr)).1]
  intro e he
  obtain ⟨e0, he0, hmap⟩ := List.mem_filterMap.mp he
  cases hroom : roomAfterDisconnect sid e0.2 with
  | none => simp [hroom] at hmap
  | some r =>
    simp [hroom] at hmap
    intro q hq
    rw [← hmap] at hq
    exact h e0 he0 q (mem_of_roomAfterDisconnect hroom q hq)

theorem studentSendCount_state {st st1 : State} {sid : String} {classId count peerId : JSVal}
    {emits : List Emit}
    (hr : studentSendCount st sid classId count peerId = Except.ok (st1, emits)) : st1 = st := by
  unfold studentSendCount at hr
  split at hr
  · exact (Prod.mk.inj (Except.ok.inj hr)).1.symm
  · exact (Prod.mk.inj (Except.ok.inj hr)).1.symm

theorem sendMessage_state {st st1 : State} {clk : Clock} {classId message sender : JSVal}
    {emits : List Emit}
    (hr : sendMessage st clk classId message sender = Except.ok (st1, emits)) : st1 = st :=
  (Prod.mk.inj (Except.ok.inj hr)).1.symm

theorem handle_keysMatchIds {st st1 : State} {sid : String} {clk : Clock} {ev : InEvent}
    {emits : List Emit} (hr : handle st sid clk ev = Except.ok (st1, emits))
    (h : st.KeysMatchIds) : st1.KeysMatchIds := by
  cases ev with
  | joinClass payload =>
    simp only [handle, onJoinClass] at hr
    cases hd : payload.destructure with
    | error e => simp [hd] at hr
    | ok f =>
      rw [hd] at hr
      exact joinClass_keysMatchIds hr h
  | sendMessage payload =>
    simp only [handle, onSendMessage] at hr
    cases hd : payload.destructure with
    | error e => simp [hd] at hr
    | ok f =>
      rw [hd] at hr
      rw [sendMessage_state hr]
      exact h
  | toggleMic payload =>
    simp only [handle, onToggleMic] at hr
    cases hd : payload.destructure with
    | error e => simp [hd] at hr
    | ok f =>
      rw [hd] at hr
      exact toggleMic_keysMatchIds hr h
  | toggleVideo payload =>
    simp only [handle, onToggleVideo] at hr
    cases hd : payload.destructure with
    | error e => simp [hd] at hr
    | ok f =>
      rw [hd] at hr
      exact toggleVideo_keysMatchIds hr h
  | disconnect => exact disconnect_keysMatchIds hr h
  | studentSendCount payload =>
    simp only [handle, onStudentSendCount] at hr
    cases hd : payload.destructure with
    | error e => simp [hd] at hr
    | ok f =>
      rw [hd] at hr
      rw [studentSendCount_state hr]
      exact h
  | leaveClass payload =>
    simp only [handle, onLeaveClass] at hr
    cases hd : payload.destructure with
    | error e => simp [hd] at hr
    | ok f =>
      rw [hd] at hr
      exact leaveClass_keysMatchIds hr h

theorem run_keysMatchIds (trace : List (String × Clock × InEvent)) :
    ∀ (st st2 : State) (emits : List Emit), st.KeysMatchIds →
      run st trace = Except.ok (st2, emits) → st2.KeysMatchIds := by
  induction trace with
  | nil =>
    intro st st2 emits h hr
    rw [← (Prod.mk.inj (Except.ok.inj hr)).1]
    exact h
  | cons item rest ih =>
    obtain ⟨sid, clk, ev⟩ := item
    intro st st2 emits h hr
    cases h1 : handle st sid clk ev with
    | error e => simp [run, h1] at hr
    | ok r1 =>
      obtain ⟨st1, emits1⟩ := r1
      cases h2 : run st1 rest with
      | error e => simp [run, h1, h2] at hr
      | ok r2 =>
        obtain ⟨st3, emits3⟩ := r2
        simp only [run, h1, h2] at hr
        have hst : st3 = st2 := (Prod.mk.inj (Except.ok.inj hr)).1
        rw [← hst]
        exact ih st1 st3 emits3 (handle_keysMatchIds h1 h) h2

theorem destructure_ok_of_isNullish_false {payload : Payload} (h : payload.isNullish = false) :
    ∃ f, payload.destructure = Except.ok f := by
  apply destructure_ok_of_not_nullish
  · intro hp
    rw [hp] at h
    simp [Payload.isNullish, JSVal.isNullish] at h
  · intro hp
    rw [hp] at h
    simp [Payload.isNullish, JSVal.isNullish] at h

theorem handle_total (st : State) (sid : String) (clk : Clock) {ev : InEvent}
    (hev : ev.destructurable = true) : ∃ r, handle st sid clk ev = Except.ok r := by
  cases ev with
  | joinClass payload =>
    obtain ⟨f, hf⟩ := @destructure_ok_of_isNullish_false payload
      (by simpa [InEvent.destructurable] using hev)
    exact ⟨_, by simp only [handle, onJoinClass, hf]; exact joinClass_eq st sid clk _ _ _ _⟩
  | sendMessage payload =>
    obtain ⟨f, hf⟩ := @destructure_ok_of_isNullish_false payload
      (by simpa [InEvent.destructurable] using hev)
    exact ⟨_, by simp only [handle, onSendMessage, hf]; rfl⟩
  | toggleMic payload =>
    obtain ⟨f, hf⟩ := @destructure_ok_of_isNullish_false payload
      (by simpa [InEvent.destructurable] using hev)
    simpa only [handle, onToggleMic, hf] using toggleMic_total st sid _ _
  | toggleVideo payload =>
    obtain ⟨f, hf⟩ := @destructure_ok_of_isNullish_false payload
      (by simpa [InEvent.destructurable] using hev)
    simpa only [handle, onToggleVideo, hf] using toggleVideo_total st sid _ _
  | disconnect => exact ⟨_, disconnect_eq st sid⟩
  | studentSendCount payload =>
    obtain ⟨f, hf⟩ := @destructure_ok_of_isNullish_false payload
      (by simpa [InEvent.destructurable] using hev)
    simpa only [handle, onStudentSendCount, hf] using studentSendCount_total st sid _ _ _
  | leaveClass payload =>
    obtain ⟨f, hf⟩ := @destructure_ok_of_isNullish_false payload
      (by simpa [InEvent.destructurable] using hev)
    simpa only [handle, onLeaveClass, hf] using leaveClass_total st sid _

theorem run_total (trace : List (String × Clock × InEvent)) :
    ∀ st : State, (∀ item ∈ trace, item.2.2.destructurable = true) →
      ∃ st2 emits, run st trace = Except.ok (st2, emits) := by
  induction trace with
  | nil =>
    intro st _
    exact ⟨st, [], rfl⟩
  | cons item rest ih =>
    obtain ⟨sid, clk, ev⟩ := item
    intro st hall
    obtain ⟨r1, h1⟩ := handle_total st sid clk (hall (sid, clk, ev) (List.mem_cons_self _ _))
    obtain ⟨st1, emits1⟩ := r1
    obtain ⟨st2, emits2, h2⟩ := ih st1 (fun item hitem => hall item (List.mem_cons_of_mem _ hitem))
    exact ⟨st2, emits1 ++ emits2, by simp only [run, h1, h2]⟩

/-- C20: in every state reached from the empty registry by a trace of handler
events, every record has the id equal to the key it is stored under, so the
record found for connection `c` in any room has id `c`; and a trace whose
payloads can all be destructured does reach such a state. -/
theorem reachable_states_keys_match_ids (trace : List (String × Clock × InEvent)) :
    (∀ st emits, run State.empty trace = Except.ok (st, emits) →
      st.KeysMatchIds ∧ ∀ R c p, st.record R c = some p → p.id = c) ∧
    ((∀ item ∈ trace, item.2.2.destructurable = true) →
      ∃ st emits, run State.empty trace = Except.ok (st, emits) ∧ st.KeysMatchIds) := by
  have hinit : State.empty.KeysMatchIds := by
    intro e he
    simp [State.empty] at he
  have hreach : ∀ st emits, run State.empty trace = Except.ok (st, emits) → st.KeysMatchIds :=
    fun st emits hr => run_keysMatchIds trace State.empty st emits hinit hr
  constructor
  · intro st emits hr
    refine ⟨hreach st emits hr, ?_⟩
    intro R c p hp
    obtain ⟨room, hroom, hrec⟩ := (record_eq_some_iff st R c p).mp hp
    exact hreach st emits hr (R, room) (JSMap.mem_of_get_eq_some hroom) (c, p)
      (JSMap.mem_of_get_eq_some hrec)
  · intro hall
    obtain ⟨st, emits, hr⟩ := run_total trace State.empty hall
    exact ⟨st, emits, hr, hreach st emits hr⟩

/-- C20, witness: the sample session runs to a state in which keys and ids agree. -/
theorem reachable_states_keys_match_ids_witness :
    (∀ item ∈ sampleTrace, item.2.2.destructurable = true) ∧
    ∃ st emits, run State.empty sampleTrace = Except.ok (st, emits) ∧ st.KeysMatchIds :=
  have hall : ∀ item ∈ sampleTrace, item.2.2.destructurable = true := by
    simp [sampleTrace, InEvent.destructurable, Payload.isNullish, joinPayload, classPayload]
  ⟨hall, (reachable_states_keys_match_ids sampleTrace).2 hall⟩

/-! ## Subscriptions and records after each handler -/

theorem mem_subscribe (subs : List (String × JSVal)) (sid : String) (classId : JSVal)
    (e : String × JSVal) : e ∈ subscribe subs sid classId ↔ e = (sid, classId) ∨ e ∈ subs := by
  unfold subscribe
  by_cases h : (sid, classId) ∈ subs
  · simp only [h, if_true]
    constructor
    · exact fun he => Or.inr he
    · rintro (he | he)
      · rw [he]
        exact h
      · exact he
  · simp only [h, if_false, List.mem_append, List.mem_singleton]
    exact Or.comm

theorem mem_unsubscribe (subs : List (String × JSVal)) (sid : String) (classId : JSVal)
    (e : String × JSVal) : e ∈ unsubscribe subs sid classId ↔ e ∈ subs ∧ e ≠ (sid, classId) := by
  simp [unsubscribe]

theorem mem_dropSubscriptions (subs : List (String × JSVal)) (sid : String)
    (e : String × JSVal) : e ∈ dropSubscriptions subs sid ↔ e ∈ subs ∧ e.1 ≠ sid := by
  simp [dropSubscriptions]

/-- Records seen after a join. -/
theorem record_after_join (st : State) (sid : String) (classId : JSVal) (p : Participant)
    (subs1 : List (String × JSVal)) (R1 : JSVal) (c1 : String) :
    State.record
        { rooms := JSMap.set st.rooms classId
            (JSMap.set ((JSMap.get st.rooms classId).getD []) sid p),
          subs := subs1 } R1 c1
      = if R1 = classId ∧ c1 = sid then some p else st.record R1 c1 := by
  unfold State.record
  by_cases hR : R1 = classId
  · subst hR
    by_cases hc : c1 = sid
    · simp [hc, JSMap.get_set_self]
    · have hc1 : ¬ sid = c1 := fun h => hc h.symm
      cases hroom : JSMap.get st.rooms R1 with
      | none => simp [hc, hc1, JSMap.get_set_self, JSMap.get_set_ne _ _ hc, JSMap.get]
      | some room => simp [hc, JSMap.get_set_self, JSMap.get_set_ne _ _ hc]
  · simp [hR, JSMap.get_set_ne _ _ hR]

/-- Records seen after the `disconnect` loop. -/
theorem record_after_disconnect (st : State) (sid : String) (subs1 : List (String × JSVal))
    (hnd : JSMap.NodupKeys st.rooms) (R1 : JSVal) (c1 : String) :
    State.record
        { rooms := st.rooms.filterMap
            (fun e => (roomAfterDisconnect sid e.2).map (fun r => (e.1, r))),
          subs := subs1 } R1 c1
      = if c1 = sid then none else st.record R1 c1 := by
  unfold State.record
  simp only []
  rw [get_filterMap_rooms _ _ hnd]
  cases hroom : JSMap.get st.rooms R1 with
  | none => simp
  | some room =>
    simp only [Option.some_bind]
    by_cases hh : JSMap.has room sid = true
    · by_cases hs : JSMap.size (JSMap.delete room sid) = 0
      · have hnil : JSMap.delete room sid = [] := List.length_eq_zero.mp hs
        have hr : roomAfterDisconnect sid room = none := by
          simp [roomAfterDisconnect, hh, hs]
        rw [hr]
        by_cases hc : c1 = sid
        · simp [hc]
        · have hget : JSMap.get room c1 = none := by
            rw [← JSMap.get_delete_ne room hc, hnil]
            rfl
          simp [hc, hget]
      · have hr : roomAfterDisconnect sid room = some (JSMap.delete room sid) := by
          simp [roomAfterDisconnect, hh, hs]
        rw [hr]
        by_cases hc : c1 = sid
        · simp [hc, JSMap.get_eq_none_of_has_false (JSMap.has_delete_self room sid)]
        · simp [hc, JSMap.get_delete_ne room hc]
    · have h1 : JSMap.has room sid = false := by simpa using hh
      rw [roomAfterDisconnect_of_has_false h1]
      by_cases hc : c1 = sid
      · simp [hc, JSMap.get_eq_none_of_has_false h1]
      · simp [hc]

theorem nodupKeys_filterMap_rooms (g : Room → Option Room) (rs : Registry)
    (hnd : JSMap.NodupKeys rs) :
    JSMap.NodupKeys (rs.filterMap (fun e => (g e.2).map (fun r => (e.1, r)))) := by
  have hsub : List.Sublist
      (JSMap.keys (rs.filterMap (fun e => (g e.2).map (fun r => (e.1, r))))) (JSMap.keys rs) := by
    induction rs with
    | nil => simp [JSMap.keys]
    | cons e rest ih =>
      obtain ⟨k, room⟩ := e
      have hnd1 : k ∉ JSMap.keys rest ∧ JSMap.NodupKeys rest := by
        simpa [JSMap.NodupKeys, JSMap.keys] using hnd
      have ih1 := ih hnd1.2
      cases hg : g room with
      | none =>
        simp only [List.filterMap_cons, hg, Option.map_none', JSMap.keys, List.map_cons]
        exact List.Sublist.cons _ ih1
      | some r =>
        simp only [List.filterMap_cons, hg, Option.map_some', JSMap.keys, List.map_cons]
        exact List.Sublist.cons₂ _ ih1
  exact List.Nodup.sublist hsub hnd

theorem mem_recipients_roomExcept (subs : List (String × JSVal)) (classId : JSVal)
    (sender sid : String) :
    sid ∈ recipients subs (Target.roomExcept classId sender)
      ↔ (sid, classId) ∈ subs ∧ sid ≠ sender := by
  simp only [recipients, List.mem_map, List.mem_filter, decide_eq_true_eq]
  constructor
  · rintro ⟨e, ⟨he, hR, hs⟩, hfst⟩
    obtain ⟨s0, R0⟩ := e
    simp only at hR hs hfst
    subst hR
    subst hfst
    exact ⟨he, hs⟩
  · rintro ⟨he, hs⟩
    exact ⟨(sid, classId), ⟨he, rfl, hs⟩, rfl⟩

/-- Replacing the record of a member keeps, for every pair, whether a record exists. -/
theorem isSome_record_after_replace (st : State) (classId : JSVal) (sid : String)
    (room : Room) (p p1 : Participant) (subs1 : List (String × JSVal))
    (hroom : JSMap.get st.rooms classId = some room) (hp : JSMap.get room sid = some p)
    (R1 : JSVal) (c1 : String) :
    (State.record
        { rooms := JSMap.set st.rooms classId (JSMap.set room sid p1), subs := subs1 }
        R1 c1).isSome
      = (st.record R1 c1).isSome := by
  by_cases hpair : (R1, c1) = (classId, sid)
  · have hR : R1 = classId := (Prod.mk.inj hpair).1
    have hc : c1 = sid := (Prod.mk.inj hpair).2
    rw [hR, hc]
    simp [State.record, JSMap.get_set_self, hroom, hp]
  · rw [record_after_update st classId sid room _ subs1 hroom
      (fun c2 hc2 => JSMap.get_set_ne room _ hc2) R1 c1 hpair]

theorem joinClass_mirrorsUpToOwnRoom {st st1 : State} {sid : String} {clk : Clock}
    {classId userName userRole peerId : JSVal} {emits : List Emit}
    (hr : joinClass st sid clk classId userName userRole peerId = Except.ok (st1, emits))
    (h : JSMap.NodupKeys st.rooms ∧ st.MirrorsUpToOwnRoom) :
    JSMap.NodupKeys st1.rooms ∧ st1.MirrorsUpToOwnRoom := by
  rw [joinClass_eq] at hr
  rw [← (Prod.mk.inj (Except.ok.inj hr)).1]
  refine ⟨JSMap.nodupKeys_set _ _ h.1, ?_, ?_⟩
  · intro R1 c1 hsome
    rw [record_after_join] at hsome
    rw [mem_subscribe]
    by_cases hpair : R1 = classId ∧ c1 = sid
    · left
      rw [hpair.1, hpair.2]
    · right
      simp only [hpair, if_false] at hsome
      exact h.2.1 R1 c1 hsome
  · intro R1 c1 hmem
    rw [mem_subscribe] at hmem
    rw [record_after_join]
    by_cases hpair : R1 = classId ∧ c1 = sid
    · left
      simp [hpair]
    · simp only [hpair, if_false]
      rcases hmem with he | hm
      · exact absurd ⟨(Prod.mk.inj he).2, (Prod.mk.inj he).1⟩ hpair
      · exact h.2.2 R1 c1 hm

theorem toggleMic_mirrorsUpToOwnRoom {st st1 : State} {sid : String} {classId v : JSVal}
    {emits : List Emit} (hr : toggleMic st sid classId v = Except.ok (st1, emits))
    (h : JSMap.NodupKeys st.rooms ∧ st.MirrorsUpToOwnRoom) :
    JSMap.NodupKeys st1.rooms ∧ st1.MirrorsUpToOwnRoom := by
  cases hrec : st.record classId sid with
  | none =>
    rw [(guarded_of_not_member st sid classId v hrec).1] at hr
    rw [← (Prod.mk.inj (Except.ok.inj hr)).1]
    exact h
  | some p =>
    obtain ⟨room, hroom, hp⟩ := (record_eq_some_iff st classId sid p).mp hrec
    rw [toggleMic_of_member st sid classId v hroom hp] at hr
    rw [← (Prod.mk.inj (Except.ok.inj hr)).1]
    refine ⟨JSMap.nodupKeys_set _ _ h.1, ?_, ?_⟩
    · intro R1 c1 hsome
      rw [isSome_record_after_replace st classId sid room p _ st.subs hroom hp] at hsome
      exact h.2.1 R1 c1 hsome
    · intro R1 c1 hmem
      rw [isSome_record_after_replace st classId sid room p _ st.subs hroom hp]
      exact h.2.2 R1 c1 hmem

theorem toggleVideo_mirrorsUpToOwnRoom {st st1 : State} {sid : String} {classId v : JSVal}
    {emits : List Emit} (hr : toggleVideo st sid classId v = Except.ok (st1, emits))
    (h : JSMap.NodupKeys st.rooms ∧ st.MirrorsUpToOwnRoom) :
    JSMap.NodupKeys st1.rooms ∧ st1.MirrorsUpToOwnRoom := by
  cases hrec : st.record classId sid with
  | none =>
    rw [(guarded_of_not_member st sid classId v hrec).2.1] at hr
    rw [← (Prod.mk.inj (Except.ok.inj hr)).1]
    exact h
  | some p =>
    obtain ⟨room, hroom, hp⟩ := (record_eq_some_iff st classId sid p).mp hrec
    rw [toggleVideo_of_member st sid classId v hroom hp] at hr
    rw [← (Prod.mk.inj (Except.ok.inj hr)).1]
    refine ⟨JSMap.nodupKeys_set _ _ h.1, ?_, ?_⟩
    · intro R1 c1 hsome
      rw [isSome_record_after_replace st classId sid room p _ st.subs hroom hp] at hsome
      exact h.2.1 R1 c1 hsome
    · intro R1 c1 hmem
      rw [isSome_record_after_replace st classId sid room p _ st.subs hroom hp]
      exact h.2.2 R1 c1 hmem

theorem leaveClass_mirrorsUpToOwnRoom {st st1 : State} {sid : String} {classId : JSVal}
    {emits : List Emit} (hr : leaveClass st sid classId = Except.ok (st1, emits))
    (h : JSMap.NodupKeys st.rooms ∧ st.MirrorsUpToOwnRoom) :
    JSMap.NodupKeys st1.rooms ∧ st1.MirrorsUpToOwnRoom := by
  cases hrec : st.record classId sid with
  | none =>
    rw [(guarded_of_not_member st sid classId JSVal.null hrec).2.2] at hr
    rw [← (Prod.mk.inj (Except.ok.inj hr)).1]
    exact h
  | some p =>
    obtain ⟨room, hroom, hp⟩ := (record_eq_some_iff st classId sid p).mp hrec
    rw [leaveClass_of_member st sid classId hroom hp] at hr
    rw [← (Prod.mk.inj (Except.ok.inj hr)).1]
    have hgone : State.record
        { rooms := JSMap.set st.rooms classId (JSMap.delete room sid),
          subs := unsubscribe st.subs sid classId } classId sid = none := by
      simp [State.record, JSMap.get_set_self,
        JSMap.get_eq_none_of_has_false (JSMap.has_delete_self room sid)]
    have hother : ∀ R1 c1, (R1, c1) ≠ (classId, sid) →
        State.record
          { rooms := JSMap.set st.rooms classId (JSMap.delete room sid),
            subs := unsubscribe st.subs sid classId } R1 c1 = st.record R1 c1 :=
      fun R1 c1 hne => record_after_update st classId sid room _ _ hroom
        (fun c2 hc2 => JSMap.get_delete_ne room hc2) R1 c1 hne
    refine ⟨JSMap.nodupKeys_set _ _ h.1, ?_, ?_⟩
    · intro R1 c1 hsome
      rw [mem_unsubscribe]
      have hpair : (R1, c1) ≠ (classId, sid) := by
        intro he
        rw [(Prod.mk.inj he).1, (Prod.mk.inj he).2, hgone] at hsome
        simp at hsome
      rw [hother R1 c1 hpair] at hsome
      refine ⟨h.2.1 R1 c1 hsome, ?_⟩
      intro he
      exact hpair (by rw [(Prod.mk.inj he).1, (Prod.mk.inj he).2])
    · intro R1 c1 hmem
      rw [mem_unsubscribe] at hmem
      have hpair : (R1, c1) ≠ (classId, sid) := by
        intro he
        exact hmem.2 (by rw [(Prod.mk.inj he).1, (Prod.mk.inj he).2])
      rw [hother R1 c1 hpair]
      exact h.2.2 R1 c1 hmem.1

/-- Opening a connection keeps the invariant: only the own-id room gains a subscriber. -/
theorem connect_mirrorsUpToOwnRoom (st : State) (sid : String)
    (h : JSMap.NodupKeys st.rooms ∧ st.MirrorsUpToOwnRoom) :
    JSMap.NodupKeys st.rooms ∧
      State.MirrorsUpToOwnRoom { st with subs := subscribe st.subs sid (JSVal.str sid) } := by
  refine ⟨h.1, ?_, ?_⟩
  · intro R1 c1 hsome
    rw [mem_subscribe]
    exact Or.inr (h.2.1 R1 c1 hsome)
  · intro R1 c1 hmem
    rw [mem_subscribe] at hmem
    rcases hmem with he | hm
    · right
      rw [(Prod.mk.inj he).1, (Prod.mk.inj he).2]
    · exact h.2.2 R1 c1 hm

/-- The transport-level disconnect keeps the invariant. -/
theorem transportDisconnect_mirrorsUpToOwnRoom {st st1 : State} {sid : String}
    {emits : List Emit}
    (hr : disconnect { st with subs := dropSubscriptions st.subs sid } sid
      = Except.ok (st1, emits))
    (h : JSMap.NodupKeys st.rooms ∧ st.MirrorsUpToOwnRoom) :
    JSMap.NodupKeys st1.rooms ∧ st1.MirrorsUpToOwnRoom := by
  rw [disconnect_eq] at hr
  rw [← (Prod.mk.inj (Except.ok.inj hr)).1]
  have hrec := record_after_disconnect st sid (dropSubscriptions st.subs sid) h.1
  simp only [] at hrec
  refine ⟨nodupKeys_filterMap_rooms _ _ h.1, ?_, ?_⟩
  · intro R1 c1 hsome
    simp only [] at hsome ⊢
    rw [hrec R1 c1] at hsome
    rw [mem_dropSubscriptions]
    by_cases hc : c1 = sid
    · simp [hc] at hsome
    · simp only [hc, if_false] at hsome
      exact ⟨h.2.1 R1 c1 hsome, hc⟩
  · intro R1 c1 hmem
    simp only [] at hmem ⊢
    rw [mem_dropSubscriptions] at hmem
    rw [hrec R1 c1]
    have hc : ¬ c1 = sid := hmem.2
    simp only [hc, if_false]
    exact h.2.2 R1 c1 hmem.1

theorem handleOnTransport_mirrorsUpToOwnRoom {st st1 : State} {sid : String} {clk : Clock}
    {ev : TransportEvent} {emits : List Emit}
    (hr : handleOnTransport st sid clk ev = Except.ok (st1, emits))
    (h : JSMap.NodupKeys st.rooms ∧ st.MirrorsUpToOwnRoom) :
    JSMap.NodupKeys st1.rooms ∧ st1.MirrorsUpToOwnRoom := by
  cases ev with
  | connect =>
    simp only [handleOnTransport] at hr
    rw [← (Prod.mk.inj (Except.ok.inj hr)).1]
    exact connect_mirrorsUpToOwnRoom st sid h
  | inbound ev =>
    cases ev with
    | joinClass payload =>
      simp only [handleOnTransport, handle, onJoinClass] at hr
      cases hd : payload.destructure with
      | error e => simp [hd] at hr
      | ok f =>
        rw [hd] at hr
        exact joinClass_mirrorsUpToOwnRoom hr h
    | sendMessage payload =>
      simp only [handleOnTransport, handle, onSendMessage] at hr
      cases hd : payload.destructure with
      | error e => simp [hd] at hr
      | ok f =>
        rw [hd] at hr
        rw [sendMessage_state hr]
        exact h
    | toggleMic payload =>
      simp only [handleOnTransport, handle, onToggleMic] at hr
      cases hd : payload.destructure with
      | error e => simp [hd] at hr
      | ok f =>
        rw [hd] at hr
        exact toggleMic_mirrorsUpToOwnRoom hr h
    | toggleVideo payload =>
      simp only [handleOnTransport, handle, onToggleVideo] at hr
      cases hd : payload.destructure with
      | error e => simp [hd] at hr
      | ok f =>
        rw [hd] at hr
        exact toggleVideo_mirrorsUpToOwnRoom hr h
    | disconnect => exact transportDisconnect_mirrorsUpToOwnRoom hr h
    | studentSendCount payload =>
      simp only [handleOnTransport, handle, onStudentSendCount] at hr
      cases hd : payload.destructure with
      | error e => simp [hd] at hr
      | ok f =>
        rw [hd] at hr
        rw [studentSendCount_state hr]
        exact h
    | leaveClass payload =>
      simp only [handleOnTransport, handle, onLeaveClass] at hr
      cases hd : payload.destructure with
      | error e => simp [hd] at hr
      | ok f =>
        rw [hd] at hr
        exact leaveClass_mirrorsUpToOwnRoom hr h

theorem runOnTransport_mirrorsUpToOwnRoom (trace : List (String × Clock × TransportEvent)) :
    ∀ (st st2 : State) (emits : List Emit),
      JSMap.NodupKeys st.rooms ∧ st.MirrorsUpToOwnRoom →
      runOnTransport st trace = Except.ok (st2, emits) →
      JSMap.NodupKeys st2.rooms ∧ st2.MirrorsUpToOwnRoom := by
  induction trace with
  | nil =>
    intro st st2 emits h hr
    rw [← (Prod.mk.inj (Except.ok.inj hr)).1]
    exact h
  | cons item rest ih =>
    obtain ⟨sid, clk, ev⟩ := item
    intro st st2 emits h hr
    cases h1 : handleOnTransport st sid clk ev with
    | error e => simp [runOnTransport, h1] at hr
    | ok r1 =>
      obtain ⟨st1, emits1⟩ := r1
      cases h2 : runOnTransport st1 rest with
      | error e => simp [runOnTransport, h1, h2] at hr
      | ok r2 =>
        obtain ⟨st3, emits3⟩ := r2
        simp only [runOnTransport, h1, h2] at hr
        have hst : st3 = st2 := (Prod.mk.inj (Except.ok.inj hr)).1
        rw [← hst]
        exact ih st1 st3 emits3 (handleOnTransport_mirrorsUpToOwnRoom h1 h) h2

theorem handleOnTransport_total (st : State) (sid : String) (clk : Clock) {ev : TransportEvent}
    (hev : ev.destructurable = true) : ∃ r, handleOnTransport st sid clk ev = Except.ok r := by
  cases ev with
  | connect => exact ⟨_, rfl⟩
  | inbound ev =>
    have hev1 : ev.destructurable = true := hev
    cases ev with
    | disconnect => exact ⟨_, disconnect_eq _ sid⟩
    | joinClass payload => exact handle_total st sid clk hev1
    | sendMessage payload => exact handle_total st sid clk hev1
    | toggleMic payload => exact handle_total st sid clk hev1
    | toggleVideo payload => exact handle_total st sid clk hev1
    | studentSendCount payload => exact handle_total st sid clk hev1
    | leaveClass payload => exact handle_total st sid clk hev1

theorem runOnTransport_total (trace : List (String × Clock × TransportEvent)) :
    ∀ st : State, (∀ item ∈ trace, item.2.2.destructurable = true) →
      ∃ st2 emits, runOnTransport st trace = Except.ok (st2, emits) := by
  induction trace with
  | nil =>
    intro st _
    exact ⟨st, [], rfl⟩
  | cons item rest ih =>
    obtain ⟨sid, clk, ev⟩ := item
    intro st hall
    obtain ⟨r1, h1⟩ :=
      handleOnTransport_total st sid clk (hall (sid, clk, ev) (List.mem_cons_self _ _))
    obtain ⟨st1, emits1⟩ := r1
    obtain ⟨st2, emits2, h2⟩ := ih st1 (fun item hitem => hall item (List.mem_cons_of_mem _ hitem))
    exact ⟨st2, emits1 ++ emits2, by simp only [runOnTransport, h1, h2]⟩

/-- C19, counterexample: Alice and Bob connect, and Socket.IO subscribes each
socket to the room named by its own id. Bob then sends `student-send-count`
with Alice's socket id as class id. The registry is still empty, so Alice has
no record in the room "A", yet she is subscribed to it and the emission to
room "A" without Bob is delivered to her: the subscriptions do not mirror the
registry. -/
theorem own_id_room_breaks_the_mirror :
    ∃ st,
      runOnTransport State.empty ownRoomTrace
        = Except.ok (st,
            [ { target := Target.roomExcept (JSVal.str "A") "B",
                event := OutEvent.studentCountUpdate (JSVal.str "p2") (JSVal.num 3) } ]) ∧
      st.rooms = [] ∧
      st.record (JSVal.str "A") "A" = none ∧
      ("A", JSVal.str "A") ∈ st.subs ∧
      recipients st.subs (Target.roomExcept (JSVal.str "A") "B") = ["A"] ∧
      ¬ st.Mirrors := by
  refine ⟨_, rfl, rfl, rfl, ?_, rfl, ?_⟩
  · exact List.mem_cons_self _ _
  · intro hm
    have h1 : (State.record { rooms := [], subs := [("A", JSVal.str "A"), ("B", JSVal.str "B")] }
        (JSVal.str "A") "A").isSome = true :=
      (hm (JSVal.str "A") "A").mp (List.mem_cons_self _ _)
    simp [State.record, JSMap.get] at h1

/-- C19, amended: start from the empty registry with no subscriptions and let
the transport deliver any trace of connections and events, a new connection
being subscribed to the room named by its own id and a closing connection
losing its subscriptions before its `disconnect` handler runs. In every state
so reached, a connection with a record in room `R` is subscribed to `R`, and a
connection subscribed to `R` has a record in `R` unless `R` is its own id.
Hence an emission addressed to room `R` without sender `c` is delivered to
every other connection with a record in `R`, and to a connection without a
record in `R` only when `R` is that connection's own id. A trace whose payloads
can all be destructured does reach such a state. -/
theorem subscriptions_mirror_registry_up_to_own_room
    (trace : List (String × Clock × TransportEvent)) :
    (∀ st emits, runOnTransport State.empty trace = Except.ok (st, emits) →
      st.MirrorsUpToOwnRoom ∧
      (∀ R c, R ≠ JSVal.str c → ((c, R) ∈ st.subs ↔ (st.record R c).isSome)) ∧
      (∀ R c c1, (st.record R c1).isSome → c1 ≠ c →
        c1 ∈ recipients st.subs (Target.roomExcept R c)) ∧
      (∀ R c c1, c1 ∈ recipients st.subs (Target.roomExcept R c) →
        c1 ≠ c ∧ ((st.record R c1).isSome ∨ R = JSVal.str c1))) ∧
    ((∀ item ∈ trace, item.2.2.destructurable = true) →
      ∃ st emits, runOnTransport State.empty trace = Except.ok (st, emits) ∧
        st.MirrorsUpToOwnRoom) := by
  have hinit : JSMap.NodupKeys State.empty.rooms ∧ State.empty.MirrorsUpToOwnRoom := by
    refine ⟨?_, ?_, ?_⟩
    · simp [JSMap.NodupKeys, JSMap.keys, State.empty]
    · intro R c hsome
      simp [State.empty, State.record, JSMap.get] at hsome
    · intro R c hmem
      simp [State.empty] at hmem
  have hreach : ∀ st emits, runOnTransport State.empty trace = Except.ok (st, emits) →
      st.MirrorsUpToOwnRoom :=
    fun st emits hr => (runOnTransport_mirrorsUpToOwnRoom trace State.empty st emits hinit hr).2
  constructor
  · intro st emits hr
    have hm := hreach st emits hr
    refine ⟨hm, ?_, ?_, ?_⟩
    · intro R c hne
      constructor
      · intro hmem
        rcases hm.2 R c hmem with h1 | h1
        · exact h1
        · exact absurd h1 hne
      · exact hm.1 R c
    · intro R c c1 hsome hne
      exact (mem_recipients_roomExcept st.subs R c c1).mpr ⟨hm.1 R c1 hsome, hne⟩
    · intro R c c1 hmem
      have h1 := (mem_recipients_roomExcept st.subs R c c1).mp hmem
      exact ⟨h1.2, hm.2 R c1 h1.1⟩
  · intro hall
    obtain ⟨st, emits, hr⟩ := runOnTransport_total trace State.empty hall
    exact ⟨st, emits, hr, hreach st emits hr⟩

/-- C19, witness: the sample session on the transport runs to a state in which
Alice still has her record in "math101", and that state satisfies the invariant. -/
theorem subscriptions_mirror_registry_up_to_own_room_witness :
    (∀ item ∈ sampleTransportTrace, item.2.2.destructurable = true) ∧
    (∃ st emits, runOnTransport State.empty sampleTransportTrace = Except.ok (st, emits) ∧
      st.MirrorsUpToOwnRoom) ∧
    (∃ st emits, runOnTransport State.empty sampleTransportTrace = Except.ok (st, emits) ∧
      st.record (JSVal.str "math101") "A" = some (alice 1000) ∧
      st.subs = [("A", JSVal.str "A"), ("A", JSVal.str "math101")] ∧
      st.MirrorsUpToOwnRoom) :=
  have hall : ∀ item ∈ sampleTransportTrace, item.2.2.destructurable = true := by
    simp [sampleTransportTrace, TransportEvent.destructurable, InEvent.destructurable,
      Payload.isNullish, joinPayload]
  ⟨hall, (subscriptions_mirror_registry_up_to_own_room sampleTransportTrace).2 hall,
   ⟨_, _, rfl, rfl, rfl,
    ((subscriptions_mirror_registry_up_to_own_room sampleTransportTrace).1 _ _ rfl).1⟩⟩

/-! ## Exceptions of the handlers on field values of any kind -/

theorem wire_destructure_eq {payload : WirePayload} (h : payload.destructurable = true) :
    payload.destructure = Except.ok (fun key => payload.field key) := by
  cases payload with
  | object fields => rfl
  | value v =>
    cases v with
    | undefined => simp [WirePayload.destructurable, JSVal.isNullish] at h
    | null => simp [WirePayload.destructurable, JSVal.isNullish] at h
    | bool b => rfl
    | num n => rfl
    | str t => rfl

theorem wire_destructure_error {payload : WirePayload} (h : payload.destructurable = false) :
    payload.destructure = Except.error JSError.typeError := by
  cases payload with
  | object fields => simp [WirePayload.destructurable] at h
  | value v =>
    cases v with
    | undefined => rfl
    | null => rfl
    | bool b => simp [WirePayload.destructurable, JSVal.isNullish] at h
    | num n => simp [WirePayload.destructurable, JSVal.isNullish] at h
    | str t => simp [WirePayload.destructurable, JSVal.isNullish] at h

theorem loggable_nil : WireRegistry.Loggable [] := by
  intro e he
  simp at he

/-- Replacing one room under a convertible key by a room of convertible names
keeps the registry loggable. -/
theorem loggable_set_room {rooms : WireRegistry} (classId : WireVal) (room1 : WireRoom)
    (h : rooms.Loggable) (hkey : classId.converts = true)
    (h1 : ∀ q ∈ room1, q.2.name.converts = true) :
    WireRegistry.Loggable (JSMap.set rooms classId room1) := by
  intro e he
  rcases JSMap.mem_set he with h2 | h2
  · rw [h2]
    exact ⟨hkey, h1⟩
  · exact h e h2

/-- The `join-class` body with convertible logged fields, in closed form. -/
theorem joinClassWire_eq (rooms : WireRegistry) (sid : String) (clk : Clock)
    (classId userName userRole peerId : WireVal)
    (hu : userName.converts = true) (hp : peerId.converts = true)
    (hc : classId.converts = true) :
    joinClassWire rooms sid clk classId userName userRole peerId
      = Except.ok
          (JSMap.set rooms classId
            (JSMap.set ((JSMap.get rooms classId).getD []) sid
              { id := sid, name := userName, role := userRole, peerId := peerId,
                isMuted := WireVal.prim (JSVal.bool false),
                isVideoOn := WireVal.prim (JSVal.bool true), joinedAt := clk.now }),
           [ { target := WireTarget.socket sid,
               event := WireOutEvent.roomParticipants
                 (JSMap.values (JSMap.set ((JSMap.get rooms classId).getD []) sid
                   { id := sid, name := userName, role := userRole, peerId := peerId,
                     isMuted := WireVal.prim (JSVal.bool false),
                     isVideoOn := WireVal.prim (JSVal.bool true), joinedAt := clk.now })) },
             { target := WireTarget.roomExcept classId sid,
               event := WireOutEvent.userJoined
                 { id := sid, name := userName, role := userRole, peerId := peerId,
                   isMuted := WireVal.prim (JSVal.bool false),
                   isVideoOn := WireVal.prim (JSVal.bool true), joinedAt := clk.now } } ]) := by
  unfold joinClassWire
  by_cases h : JSMap.has rooms classId = true
  · obtain ⟨room, hroom⟩ := JSMap.exists_get_of_has h
    simp [h, hroom, JSMap.get_set_self, hu, hp, hc]
  · have h1 : JSMap.has rooms classId = false := by simpa using h
    simp [h1, JSMap.get_eq_none_of_has_false h1, JSMap.get_set_self, JSMap.set_set, hu, hp, hc]

/-- The `join-class` body raises when a logged field does not convert. -/
theorem joinClassWire_raises (rooms : WireRegistry) (sid : String) (clk : Clock)
    (classId userName userRole peerId : WireVal)
    (h : (userName.converts && peerId.converts && classId.converts) = false) :
    joinClassWire rooms sid clk classId userName userRole peerId
      = Except.error JSError.typeError := by
  unfold joinClassWire
  by_cases hh : JSMap.has rooms classId = true
  · obtain ⟨room, hroom⟩ := JSMap.exists_get_of_has hh
    simp only [hh, if_true, hroom, h]
    rfl
  · have h1 : JSMap.has rooms classId = false := by simpa using hh
    simp [h1, JSMap.get_set_self, h]

theorem joinClassWire_loggable {rooms : WireRegistry} (sid : String) (clk : Clock)
    (classId userName userRole peerId : WireVal) (hinv : rooms.Loggable)
    (hu : userName.converts = true) (hp : peerId.converts = true)
    (hc : classId.converts = true) :
    ∃ rooms1 emits,
      joinClassWire rooms sid clk classId userName userRole peerId = Except.ok (rooms1, emits) ∧
      rooms1.Loggable := by
  refine ⟨_, _, joinClassWire_eq rooms sid clk classId userName userRole peerId hu hp hc, ?_⟩
  apply loggable_set_room _ _ hinv hc
  intro q hq
  rcases JSMap.mem_set hq with h2 | h2
  · rw [h2]
    exact hu
  · cases hroom : JSMap.get rooms classId with
    | none => simp [hroom] at h2
    | some room =>
      simp only [hroom, Option.getD_some] at h2
      exact (hinv (classId, room) (JSMap.mem_of_get_eq_some hroom)).2 q h2

theorem toggleMicWire_loggable {rooms : WireRegistry} (sid : String) (classId v : WireVal)
    (hinv : rooms.Loggable) :
    ∃ rooms1 emits, toggleMicWire rooms sid classId v = Except.ok (rooms1, emits) ∧
      rooms1.Loggable := by
  unfold toggleMicWire
  cases hroom : JSMap.get rooms classId with
  | none => exact ⟨_, _, rfl, hinv⟩
  | some room =>
    have hmem := JSMap.mem_of_get_eq_some hroom
    by_cases hh : JSMap.has room sid = true
    · obtain ⟨p, hp⟩ := JSMap.exists_get_of_has hh
      simp only [hh, if_true, hp]
      refine ⟨_, _, rfl, ?_⟩
      apply loggable_set_room _ _ hinv (hinv _ hmem).1
      intro q hq
      rcases JSMap.mem_set hq with h2 | h2
      · rw [h2]
        exact (hinv _ hmem).2 (sid, p) (JSMap.mem_of_get_eq_some hp)
      · exact (hinv _ hmem).2 q h2
    · have h1 : JSMap.has room sid = false := by simpa using hh
      simp only [h1]
      exact ⟨_, _, rfl, hinv⟩

theorem toggleVideoWire_loggable {rooms : WireRegistry} (sid : String) (classId v : WireVal)
    (hinv : rooms.Loggable) :
    ∃ rooms1 emits, toggleVideoWire rooms sid classId v = Except.ok (rooms1, emits) ∧
      rooms1.Loggable := by
  unfold toggleVideoWire
  cases hroom : JSMap.get rooms classId with
  | none => exact ⟨_, _, rfl, hinv⟩
  | some room =>
    have hmem := JSMap.mem_of_get_eq_some hroom
    by_cases hh : JSMap.has room sid = true
    · obtain ⟨p, hp⟩ := JSMap.exists_get_of_has hh
      simp only [hh, if_true, hp]
      refine ⟨_, _, rfl, ?_⟩
      apply loggable_set_room _ _ hinv (hinv _ hmem).1
      intro q hq
      rcases JSMap.mem_set hq with h2 | h2
      · rw [h2]
        exact (hinv _ hmem).2 (sid, p) (JSMap.mem_of_get_eq_some hp)
      · exact (hinv _ hmem).2 q h2
    · have h1 : JSMap.has room sid = false := by simpa using hh
      simp only [h1]
      exact ⟨_, _, rfl, hinv⟩

theorem leaveClassWire_loggable {rooms : WireRegistry} (sid : String) (classId : WireVal)
    (hinv : rooms.Loggable) :
    ∃ rooms1 emits, leaveClassWire rooms sid classId = Except.ok (rooms1, emits) ∧
      rooms1.Loggable := by
  unfold leaveClassWire
  cases hroom : JSMap.get rooms classId with
  | none => exact ⟨_, _, rfl, hinv⟩
  | some room =>
    have hmem := JSMap.mem_of_get_eq_some hroom
    by_cases hh : JSMap.has room sid = true
    · obtain ⟨p, hp⟩ := JSMap.exists_get_of_has hh
      have hname : p.name.converts = true :=
        (hinv _ hmem).2 (sid, p) (JSMap.mem_of_get_eq_some hp)
      have hkey : classId.converts = true := (hinv _ hmem).1
      simp only [hh, if_true, hp, hname, hkey, Bool.and_self]
      refine ⟨_, _, rfl, ?_⟩
      apply loggable_set_room _ _ hinv hkey
      intro q hq
      exact (hinv _ hmem).2 q (JSMap.mem_of_mem_delete hq)
    · have h1 : JSMap.has room sid = false := by simpa using hh
      simp only [h1]
      exact ⟨_, _, rfl, hinv⟩

theorem studentSendCountWire_loggable {rooms : WireRegistry} (sid : String)
    (classId count peerId : WireVal) (hinv : rooms.Loggable) :
    ∃ rooms1 emits, studentSendCountWire rooms sid classId count peerId
        = Except.ok (rooms1, emits) ∧ rooms1.Loggable := by
  unfold studentSendCountWire
  split
  · exact ⟨_, _, rfl, hinv⟩
  · exact ⟨_, _, rfl, hinv⟩

theorem disconnectRoomsWire_loggable (sid : String) (rooms : WireRegistry)
    (hinv : rooms.Loggable) :
    ∃ rooms1 emits, disconnectRoomsWire sid rooms = Except.ok (rooms1, emits) ∧
      rooms1.Loggable := by
  induction rooms with
  | nil => exact ⟨_, _, rfl, loggable_nil⟩
  | cons e rest ih =>
    obtain ⟨classId, room⟩ := e
    have hhead := hinv (classId, room) (List.mem_cons_self _ _)
    obtain ⟨rest1, emits1, hrest, hinv1⟩ :=
      ih (fun e he => hinv e (List.mem_cons_of_mem _ he))
    by_cases hh : JSMap.has room sid = true
    · obtain ⟨p, hp⟩ := JSMap.exists_get_of_has hh
      by_cases hs : JSMap.size (JSMap.delete room sid) = 0
      · simp only [disconnectRoomsWire, disconnectVisitWire, hh, if_true, hp, hs, hrest]
        exact ⟨_, _, rfl, hinv1⟩
      · simp only [disconnectRoomsWire, disconnectVisitWire, hh, if_true, hp, hs, if_false,
          hrest]
        refine ⟨_, _, rfl, ?_⟩
        intro e he
        rcases List.mem_cons.mp he with h2 | h2
        · rw [h2]
          exact ⟨hhead.1, fun q hq => hhead.2 q (JSMap.mem_of_mem_delete hq)⟩
        · exact hinv1 e h2
    · have h1 : JSMap.has room sid = false := by simpa using hh
      simp only [disconnectRoomsWire, disconnectVisitWire, h1, hrest]
      refine ⟨_, _, rfl, ?_⟩
      intro e he
      rcases List.mem_cons.mp he with h2 | h2
      · rw [h2]
        exact hhead
      · exact hinv1 e h2

theorem loggable_fields {payload : WirePayload} (h : payload.loggable = true) :
    (payload.field "userName").converts = true ∧ (payload.field "peerId").converts = true ∧
      (payload.field "classId").converts = true := by
  simpa [WirePayload.loggable, and_assoc] using h

theorem onJoinClassWire_loggable {rooms : WireRegistry} (sid : String) (clk : Clock)
    {payload : WirePayload} (hinv : rooms.Loggable) (hd : payload.destructurable = true)
    (hl : payload.loggable = true) :
    ∃ rooms1 emits, onJoinClassWire rooms sid clk payload = Except.ok (rooms1, emits) ∧
      rooms1.Loggable := by
  obtain ⟨hu, hp, hc⟩ := loggable_fields hl
  simp only [onJoinClassWire, wire_destructure_eq hd]
  exact joinClassWire_loggable sid clk _ _ _ _ hinv hu hp hc

theorem onJoinClassWire_raises (rooms : WireRegistry) (sid : String) (clk : Clock)
    {payload : WirePayload} (hd : payload.destructurable = true)
    (hl : payload.loggable = false) :
    onJoinClassWire rooms sid clk payload = Except.error JSError.typeError := by
  simp only [onJoinClassWire, wire_destructure_eq hd]
  exact joinClassWire_raises rooms sid clk _ _ _ _ hl

theorem handleWire_loggable {rooms : WireRegistry} (sid : String) (clk : Clock)
    {ev : WireEvent} (hinv : rooms.Loggable) (hev : ev.acceptable = true) :
    ∃ rooms1 emits, handleWire rooms sid clk ev = Except.ok (rooms1, emits) ∧
      rooms1.Loggable := by
  cases ev with
  | joinClass payload =>
    have h : payload.destructurable = true ∧ payload.loggable = true := by
      simpa [WireEvent.acceptable] using hev
    exact onJoinClassWire_loggable sid clk hinv h.1 h.2
  | sendMessage payload =>
    have hd : payload.destructurable = true := hev
    simp only [handleWire, onSendMessageWire, wire_destructure_eq hd]
    exact ⟨_, _, rfl, hinv⟩
  | toggleMic payload =>
    have hd : payload.destructurable = true := hev
    simp only [handleWire, onToggleMicWire, wire_destructure_eq hd]
    exact toggleMicWire_loggable sid _ _ hinv
  | toggleVideo payload =>
    have hd : payload.destructurable = true := hev
    simp only [handleWire, onToggleVideoWire, wire_destructure_eq hd]
    exact toggleVideoWire_loggable sid _ _ hinv
  | disconnect => exact disconnectRoomsWire_loggable sid rooms hinv
  | studentSendCount payload =>
    have hd : payload.destructurable = true := hev
    simp only [handleWire, onStudentSendCountWire, wire_destructure_eq hd]
    exact studentSendCountWire_loggable sid _ _ _ hinv
  | leaveClass payload =>
    have hd : payload.destructurable = true := hev
    simp only [handleWire, onLeaveClassWire, wire_destructure_eq hd]
    exact leaveClassWire_loggable sid _ hinv

theorem runWire_loggable (trace : List (String × Clock × WireEvent)) :
    ∀ rooms : WireRegistry, rooms.Loggable →
      (∀ item ∈ trace, item.2.2.acceptable = true) →
      ∃ rooms2 emits, runWire rooms trace = Except.ok (rooms2, emits) ∧ rooms2.Loggable := by
  induction trace with
  | nil =>
    intro rooms hinv _
    exact ⟨rooms, [], rfl, hinv⟩
  | cons item rest ih =>
    obtain ⟨sid, clk, ev⟩ := item
    intro rooms hinv hall
    obtain ⟨rooms1, emits1, h1, hinv1⟩ :=
      handleWire_loggable sid clk hinv (hall (sid, clk, ev) (List.mem_cons_self _ _))
    obtain ⟨rooms2, emits2, h2, hinv2⟩ :=
      ih rooms1 hinv1 (fun item hitem => hall item (List.mem_cons_of_mem _ hitem))
    exact ⟨rooms2, emits1 ++ emits2, by simp only [runWire, h1, h2], hinv2⟩

/-- C8, counterexample: an event sent without an argument, or with `null`,
makes the parameter destructuring raise a `TypeError`, in each of the six
handlers; and `join-class` with the object parsed from `{"toString": null}` as
`userName` raises a `TypeError` at its log line 49. -/
theorem handlers_raise_on_some_payloads :
    onJoinClassWire [] "A" ⟨1000, "10:00"⟩ (WirePayload.value JSVal.undefined)
      = Except.error JSError.typeError ∧
    onSendMessageWire [] ⟨1000, "10:00"⟩ (WirePayload.value JSVal.undefined)
      = Except.error JSError.typeError ∧
    onToggleMicWire [] "A" (WirePayload.value JSVal.null) = Except.error JSError.typeError ∧
    onToggleVideoWire [] "A" (WirePayload.value JSVal.null) = Except.error JSError.typeError ∧
    onLeaveClassWire [] "A" (WirePayload.value JSVal.undefined)
      = Except.error JSError.typeError ∧
    onStudentSendCountWire [] "A" (WirePayload.value JSVal.null)
      = Except.error JSError.typeError ∧
    onJoinClassWire [] "B" ⟨2000, "10:01"⟩ unprintableNamePayload
      = Except.error JSError.typeError :=
  ⟨rfl, rfl, rfl, rfl, rfl, rfl, rfl⟩

/-- C8, amended: take any registry whose room keys and stored names convert to
a string, any connection and clock, and any payload other than `undefined` and
`null`: a boolean, number or string, or an object or array whose fields may be
missing and may hold values of any kind, objects and arrays included. Then
`send-message`, `toggle-mic`, `toggle-video`, `leave-class` and
`student-send-count` complete without an exception, and `join-class`
completes exactly when the `userName`, `peerId` and `classId` it logs convert
to a string. Every handler that completes leaves a registry of the same kind,
and so does the empty registry: every trace of events of this kind, started
from the empty registry, runs to its end without an exception. -/
theorem handlers_complete_on_acceptable_payloads (rooms : WireRegistry) (sid : String)
    (clk : Clock) (payload : WirePayload)
    (hinv : rooms.Loggable) (hd : payload.destructurable = true) :
    ((∃ rooms1 emits, onJoinClassWire rooms sid clk payload = Except.ok (rooms1, emits) ∧
        rooms1.Loggable) ↔ payload.loggable = true) ∧
    (payload.loggable = false →
      onJoinClassWire rooms sid clk payload = Except.error JSError.typeError) ∧
    (∃ emits, onSendMessageWire rooms clk payload = Except.ok (rooms, emits)) ∧
    (∃ rooms1 emits, onToggleMicWire rooms sid payload = Except.ok (rooms1, emits) ∧
      rooms1.Loggable) ∧
    (∃ rooms1 emits, onToggleVideoWire rooms sid payload = Except.ok (rooms1, emits) ∧
      rooms1.Loggable) ∧
    (∃ rooms1 emits, onLeaveClassWire rooms sid payload = Except.ok (rooms1, emits) ∧
      rooms1.Loggable) ∧
    (∃ emits, onStudentSendCountWire rooms sid payload = Except.ok (rooms, emits)) ∧
    (∀ trace : List (String × Clock × WireEvent),
      (∀ item ∈ trace, item.2.2.acceptable = true) →
      ∃ rooms2 emits, runWire [] trace = Except.ok (rooms2, emits) ∧ rooms2.Loggable) := by
  refine ⟨⟨?_, ?_⟩, ?_, ?_, ?_, ?_, ?_, ?_, ?_⟩
  · rintro ⟨rooms1, emits, hok, _⟩
    cases hl : payload.loggable with
    | true => rfl
    | false =>
      rw [onJoinClassWire_raises rooms sid clk hd hl] at hok
      simp at hok
  · exact fun hl => onJoinClassWire_loggable sid clk hinv hd hl
  · exact fun hl => onJoinClassWire_raises rooms sid clk hd hl
  · simp only [onSendMessageWire, wire_destructure_eq hd]
    exact ⟨_, rfl⟩
  · simp only [onToggleMicWire, wire_destructure_eq hd]
    exact toggleMicWire_loggable sid _ _ hinv
  · simp only [onToggleVideoWire, wire_destructure_eq hd]
    exact toggleVideoWire_loggable sid _ _ hinv
  · simp only [onLeaveClassWire, wire_destructure_eq hd]
    exact leaveClassWire_loggable sid _ hinv
  · simp only [onStudentSendCountWire, wire_destructure_eq hd, studentSendCountWire]
    split
    · exact ⟨_, rfl⟩
    · exact ⟨_, rfl⟩
  · exact fun trace hall => runWire_loggable trace [] loggable_nil hall

/-- C8, witness: in the registry where Alice is alone in "math101", a payload
with missing and wrong-typed fields is handled by all six handlers without an
exception, and the sample session with payloads of several kinds runs to its end. -/
theorem handlers_complete_on_acceptable_payloads_witness :
    aliceAloneWire.Loggable ∧ wrongTypedPayload.destructurable = true ∧
    wrongTypedPayload.loggable = true ∧
    (∃ rooms1 emits, onJoinClassWire aliceAloneWire "A" ⟨2000, "10:01"⟩ wrongTypedPayload
        = Except.ok (rooms1, emits) ∧ rooms1.Loggable) ∧
    (∃ emits, onSendMessageWire aliceAloneWire ⟨2000, "10:01"⟩ wrongTypedPayload
        = Except.ok (aliceAloneWire, emits)) ∧
    (∃ rooms1 emits, onToggleMicWire aliceAloneWire "A" wrongTypedPayload
        = Except.ok (rooms1, emits) ∧ rooms1.Loggable) ∧
    (∃ rooms1 emits, onToggleVideoWire aliceAloneWire "A" wrongTypedPayload
        = Except.ok (rooms1, emits) ∧ rooms1.Loggable) ∧
    (∃ rooms1 emits, onLeaveClassWire aliceAloneWire "A" wrongTypedPayload
        = Except.ok (rooms1, emits) ∧ rooms1.Loggable) ∧
    (∃ emits, onStudentSendCountWire aliceAloneWire "A" wrongTypedPayload
        = Except.ok (aliceAloneWire, emits)) ∧
    (∀ item ∈ sampleWireTrace, item.2.2.acceptable = true) ∧
    (∃ rooms2 emits, runWire [] sampleWireTrace = Except.ok (rooms2, emits) ∧
      rooms2.Loggable) :=
  have hinv : aliceAloneWire.Loggable := by
    intro e he
    simp only [aliceAloneWire, List.mem_singleton] at he
    rw [he]
    refine ⟨rfl, ?_⟩
    intro q hq
    simp only [List.mem_singleton] at hq
    rw [hq]
    rfl
  have hall : ∀ item ∈ sampleWireTrace, item.2.2.acceptable = true := by
    intro item hitem
    simp only [sampleWireTrace, List.mem_cons, List.mem_singleton, List.not_mem_nil,
      or_false] at hitem
    rcases hitem with h | h | h | h <;> (rw [h]; rfl)
  have hthm := handlers_complete_on_acceptable_payloads aliceAloneWire "A" ⟨2000, "10:01"⟩
    wrongTypedPayload hinv rfl
  ⟨hinv, rfl, rfl, hthm.1.mpr rfl, hthm.2.2.1, hthm.2.2.2.1, hthm.2.2.2.2.1,
   hthm.2.2.2.2.2.1, hthm.2.2.2.2.2.2.1, hall, hthm.2.2.2.2.2.2.2 sampleWireTrace hall⟩

end SignalingServer
